import Mathlib

/-!
Shallow embedding of the gb-rs Game Boy emulator core, translated from the
Rust sources (`src/interrupts.rs`, `src/timer.rs`, `src/ppu.rs`, `src/bus.rs`,
`src/cart/mbc1.rs`, `src/cpu.rs`).

Conventions:
* `u8` / `u16` / `u32` machine integers are modelled as `Nat`, reduced with
  `% 256` / `% 65536` exactly where the Rust code wraps (`wrapping_add`,
  `wrapping_sub`, `as u8` casts).  Plain `+` / `-` on Rust unsigned integers
  wraps in release builds; where the source relies on that (stack-pointer and
  HL updates written with plain operators) we model the wrapping semantics and
  note it at the definition.
* Code paths that abort the process (`unreachable!`, `unimplemented!`,
  failed `expect`, out-of-bounds indexing) are modelled by `Option`: a result
  of `none` means the Rust code panics.
* Byte arrays (`[u8; N]`) are modelled as total functions `Nat → Nat`
  together with explicit length checks where the Rust code indexes slices
  whose length matters.
-/

/-- `IntSource` from `src/interrupts.rs`: the five interrupt sources, with
their `IF`/`IE` bit values. -/
inductive IntSource where
  | VBLANK
  | LCD
  | TIMER
  | SERIAL
  | JOYPAD
deriving DecidableEq, Repr

/-- The discriminant value of each `IntSource` (`VBLANK = 0x1`, ...,
`JOYPAD = 0x10`), used as the `IF`/`IE` mask bit. -/
def IntSource.toNat : IntSource → Nat
  | .VBLANK => 0x1
  | .LCD => 0x2
  | .TIMER => 0x4
  | .SERIAL => 0x8
  | .JOYPAD => 0x10

/-- `InterruptController` from `src/interrupts.rs`: `int_en` is IE and
`int_f` is IF. -/
structure InterruptController where
  intEn : Nat
  intF : Nat
deriving DecidableEq, Repr

/-- `InterruptController::new`. -/
def InterruptController.new : InterruptController := ⟨0, 0⟩

/-- `InterruptController::write`: `0xFF0F` sets IF masked to 5 bits,
`0xFFFF` sets IE masked to 5 bits; any other address is `unreachable!`
(modelled as `none`). -/
def InterruptController.write (ic : InterruptController) (addr val : Nat) :
    Option InterruptController :=
  if addr = 0xFF0F then some { ic with intF := val &&& 0x1F }
  else if addr = 0xFFFF then some { ic with intEn := val &&& 0x1F }
  else none

/-- `InterruptController::read`: returns the stored IF / IE byte; any other
address is `unreachable!` (modelled as `none`). -/
def InterruptController.read (ic : InterruptController) (addr : Nat) : Option Nat :=
  if addr = 0xFF0F then some ic.intF
  else if addr = 0xFFFF then some ic.intEn
  else none

/-- `InterruptController::interrupt`: latch a source into IF. -/
def InterruptController.interrupt (ic : InterruptController) (s : IntSource) :
    InterruptController :=
  { ic with intF := ic.intF ||| s.toNat }

/-- `InterruptController::interrupt_clear`: clear a source bit of IF.
Rust computes `int_f & !(src as u8)` on `u8`. -/
def InterruptController.interruptClear (ic : InterruptController) (s : IntSource) :
    InterruptController :=
  { ic with intF := ic.intF &&& (0xFF ^^^ s.toNat) }

/-- `InterruptController::pending`: note the source tests `int_f != 0` only —
IE does not participate. -/
def InterruptController.pending (ic : InterruptController) : Bool :=
  ic.intF ≠ 0

/-- `<InterruptController as Iterator>::next` from `src/interrupts.rs`.
The Rust loop walks `bit_idx` through 1, 2, 4, ... while `masked != 0`,
returning the source of the first set bit; a first set bit above `0x10`
reaches the `unreachable!` match arm (modelled as `none`). -/
def InterruptController.next (ic : InterruptController) : Option (Option IntSource) :=
  let masked := ic.intF &&& ic.intEn
  if masked = 0 then some none
  else if (masked &&& 0x1) ≠ 0 then some (some .VBLANK)
  else if (masked &&& 0x2) ≠ 0 then some (some .LCD)
  else if (masked &&& 0x4) ≠ 0 then some (some .TIMER)
  else if (masked &&& 0x8) ≠ 0 then some (some .SERIAL)
  else if (masked &&& 0x10) ≠ 0 then some (some .JOYPAD)
  else none

/-- `Timer` from `src/timer.rs`. -/
structure Timer where
  tima : Nat
  tma : Nat
  tac : Nat
  systemCounter : Nat
deriving DecidableEq, Repr

/-- `Timer::new`. -/
def Timer.new : Timer := ⟨0, 0, 0, 0⟩

/-- `Timer::enabled`: TAC bit 2. -/
def Timer.enabled (t : Timer) : Bool := (t.tac &&& 0x4) = 0x4

/-- `Timer::write` (`0xFF04` zeroes the system counter, `0xFF05`..`0xFF07`
store TIMA/TMA/TAC); other addresses are `unreachable!`. -/
def Timer.write (t : Timer) (addr val : Nat) : Option Timer :=
  if addr = 0xFF04 then some { t with systemCounter := 0 }
  else if addr = 0xFF05 then some { t with tima := val }
  else if addr = 0xFF06 then some { t with tma := val }
  else if addr = 0xFF07 then some { t with tac := val }
  else none

/-- `Timer::read`; other addresses are `unreachable!`. -/
def Timer.read (t : Timer) (addr : Nat) : Option Nat :=
  if addr = 0xFF04 then some ((t.systemCounter >>> 8) &&& 0xFF)
  else if addr = 0xFF05 then some t.tima
  else if addr = 0xFF06 then some t.tma
  else if addr = 0xFF07 then some t.tac
  else none

/-- `Timer::tick`: advance the 16-bit system counter one machine cycle and
report whether TIMA overflowed (raising a TIMER interrupt).  The selected
bit is `8/2/4/6 - 1` per `tac & 3` as in the source's log2 table. -/
def Timer.tick (t : Timer) : Timer × Bool :=
  let preAdd := t.systemCounter
  let t := { t with systemCounter := (t.systemCounter + 1) % 65536 }
  if !t.enabled then (t, false)
  else
    let numShift :=
      (match t.tac &&& 0x3 with
        | 0 => 8
        | 1 => 2
        | 2 => 4
        | _ => 6) - 1
    let preLsb := ((preAdd >>> numShift) &&& 1) = 1
    let postLsb := ((t.systemCounter >>> numShift) &&& 1) = 1
    if preLsb ∧ ¬postLsb then
      let t := { t with tima := (t.tima + 1) % 256 }
      if t.tima = 0 then ({ t with tima := t.tma }, true) else (t, false)
    else (t, false)

/-- `PpuMode` from `src/ppu.rs`. -/
inductive PpuMode where
  | HBLANK
  | VBLANK
  | OAMSCAN
  | DRAW
deriving DecidableEq, Repr

/-- The mode's numeric value (`HBLANK = 0`, `VBLANK = 1`, `OAMSCAN = 2`,
`DRAW = 3`), as used by `get_stat`. -/
def PpuMode.toNat : PpuMode → Nat
  | .HBLANK => 0
  | .VBLANK => 1
  | .OAMSCAN => 2
  | .DRAW => 3

/-- `PPU` from `src/ppu.rs`.  VRAM and OAM are byte stores; the completed
frame buffer `screen` and the debug counter `cnt` are omitted from the model:
they are written by the render helpers but never feed back into any other
field, register read, or interrupt decision. -/
structure PPU where
  vram : Nat → Nat
  oam : Nat → Nat
  lcdc : Nat
  stat : Nat
  scy : Nat
  scx : Nat
  ly : Nat
  lyc : Nat
  bgp : Nat
  obp0 : Nat
  obp1 : Nat
  wy : Nat
  wx : Nat
  windowTriggered : Bool
  windowCounter : Nat
  mode : PpuMode
  rCyc : Int

/-- `PPU::new`. -/
def PPU.new : PPU where
  vram := fun _ => 0
  oam := fun _ => 0
  lcdc := 0
  stat := 0
  scy := 0
  scx := 0
  ly := 0
  lyc := 0
  bgp := 0
  obp0 := 0
  obp1 := 0
  wy := 0
  wx := 0
  windowTriggered := false
  windowCounter := 0
  mode := .OAMSCAN
  rCyc := 20

/-- `PPU::write`: VRAM, OAM and the LCD registers; `0xFF44` (LY) ignores the
write; `0xFF46` is `unimplemented!` in the PPU (the bus intercepts DMA before
it reaches the PPU); any other address is `unreachable!`. -/
def PPU.write (p : PPU) (addr val : Nat) : Option PPU :=
  if 0x8000 ≤ addr ∧ addr ≤ 0x9FFF then
    some { p with vram := fun i => if i = addr - 0x8000 then val else p.vram i }
  else if 0xFE00 ≤ addr ∧ addr ≤ 0xFE9F then
    some { p with oam := fun i => if i = addr - 0xFE00 then val else p.oam i }
  else if addr = 0xFF40 then some { p with lcdc := val }
  else if addr = 0xFF41 then some { p with stat := val }
  else if addr = 0xFF42 then some { p with scy := val }
  else if addr = 0xFF43 then some { p with scx := val }
  else if addr = 0xFF44 then some p
  else if addr = 0xFF45 then some { p with lyc := val }
  else if addr = 0xFF46 then none
  else if addr = 0xFF47 then some { p with bgp := val }
  else if addr = 0xFF48 then some { p with obp0 := val }
  else if addr = 0xFF49 then some { p with obp1 := val }
  else if addr = 0xFF4A then some { p with wy := val }
  else if addr = 0xFF4B then some { p with wx := val }
  else none

/-- `PPU::get_stat`: upper STAT bits from the stored byte, low bits from the
mode, plus `0x6` when `LY == LYC` (as written in the source). -/
def PPU.getStat (p : PPU) : Nat :=
  (p.stat &&& 0xF8) ||| p.mode.toNat ||| (if p.ly = p.lyc then 0x6 else 0)

/-- `PPU::read`; `0xFF46` (DMA) reads as `0xFF`; any other address is
`unreachable!`. -/
def PPU.read (p : PPU) (addr : Nat) : Option Nat :=
  if 0x8000 ≤ addr ∧ addr ≤ 0x9FFF then some (p.vram (addr - 0x8000))
  else if 0xFE00 ≤ addr ∧ addr ≤ 0xFE9F then some (p.oam (addr - 0xFE00))
  else if addr = 0xFF40 then some p.lcdc
  else if addr = 0xFF41 then some p.getStat
  else if addr = 0xFF42 then some p.scy
  else if addr = 0xFF43 then some p.scx
  else if addr = 0xFF44 then some p.ly
  else if addr = 0xFF45 then some p.lyc
  else if addr = 0xFF46 then some 0xFF
  else if addr = 0xFF47 then some p.bgp
  else if addr = 0xFF48 then some p.obp0
  else if addr = 0xFF49 then some p.obp1
  else if addr = 0xFF4A then some p.wy
  else if addr = 0xFF4B then some p.wx
  else none

/-- `PPU::render_line`: draws one scanline into the frame buffer.  The only
modelled state it mutates is the internal window line counter, which the
source increments exactly when the window layer is enabled (LCDC bit 5), the
window has triggered this frame, and `WX <= 166` (the `wx > 166` branch skips
the line).  The pixel output itself goes to the omitted `screen` buffer. -/
def PPU.renderLine (p : PPU) : PPU :=
  if (p.lcdc &&& 0x20) ≠ 0 ∧ p.windowTriggered ∧ p.wx ≤ 166 then
    { p with windowCounter := (p.windowCounter + 1) % 256 }
  else p

/-- `PPU::run` from `src/ppu.rs`: consume `cycles` machine cycles, stepping
the four-mode machine when the remaining-cycle budget `r_cyc` expires, and
return the raised interrupt source, if any. -/
def PPU.run (p : PPU) (cycles : Int) : PPU × Option IntSource :=
  if cycles < p.rCyc then ({ p with rCyc := p.rCyc - cycles }, none)
  else
    let over := cycles - p.rCyc
    match p.mode with
    | .OAMSCAN =>
      ({ p with mode := .DRAW, rCyc := 43 - over }, none)
    | .DRAW =>
      let p := if p.ly = p.wy then { p with windowTriggered := true } else p
      let p := p.renderLine
      let p := { p with mode := .HBLANK, rCyc := 51 - over }
      if (p.stat &&& 0x8) ≠ 0 then (p, some .LCD) else (p, none)
    | .HBLANK =>
      let p := { p with ly := (p.ly + 1) % 256 }
      if p.ly = 143 then
        let p := { p with mode := .VBLANK, rCyc := 114 - over }
        if (p.stat &&& 0x40) ≠ 0 ∧ p.ly = p.lyc then (p, some .LCD)
        else (p, some .VBLANK)
      else
        let p := { p with mode := .OAMSCAN, rCyc := 20 - over }
        if (p.stat &&& 0x40) ≠ 0 ∧ p.ly = p.lyc then (p, some .LCD)
        else if (p.stat &&& 0x20) ≠ 0 then (p, some .LCD)
        else (p, none)
    | .VBLANK =>
      if p.ly = 153 then
        let p := { p with mode := .OAMSCAN, rCyc := 20 - over, ly := 0,
                          windowCounter := 0, windowTriggered := false }
        if (p.stat &&& 0x20) ≠ 0 then (p, some .LCD) else (p, none)
      else
        let p := { p with ly := (p.ly + 1) % 256, rCyc := 114 - over }
        if (p.stat &&& 0x40) ≠ 0 ∧ p.ly = p.lyc then (p, some .LCD)
        else (p, none)

/-- `PPU::run` with the partiality of `render_line` made explicit.
`render_line` is reached only in the `DRAW` arm, when the remaining-cycle
budget expires; its first step, `render_new_bg2`, indexes
`screen.buf[self.ly]`, and the frame buffer has `SCREEN_HEIGHT = 144`
rows, so that call panics exactly when `LY ≥ 144` (modelled as `none`).
On every other path `PPU::run` is total and agrees with `PPU.run`
above, which `PPU.run`'s callers inside the PPU-only developments use on
states where the panic is unreachable. -/
def PPU.runChecked (p : PPU) (cycles : Int) : Option (PPU × Option IntSource) :=
  if p.rCyc ≤ cycles ∧ p.mode = PpuMode.DRAW ∧ 144 ≤ p.ly then none
  else some (p.run cycles)

/-- `StaticBus` from `src/bus.rs`.  The fixed-size byte arrays are modelled
as total functions; `passed_buf` (the ring of the last bytes written to the
serial-data register, used only by `is_passed`) is a list. -/
structure StaticBus where
  rom : Nat → Nat
  mappedRom : Nat → Nat
  ppu : PPU
  eram : Nat → Nat
  wram : Nat → Nat
  mappedWram : Nat → Nat
  timer : Timer
  intController : InterruptController
  io : Nat → Nat
  hram : Nat → Nat
  passedBuf : List Nat

/-- `<StaticBus as Bus>::read` from `src/bus.rs`.  Reads from the echo
region `0xE000..=0xFDFF` and the prohibited regions `0xFEA0..=0xFEFF` and
`0xFF08..=0xFF0E` log a message and return 0; the joypad register `0xFF00`
reads as `0xFF`.  The match is exhaustive over `u16`, so the final branch is
unreachable for `addr < 0x10000`. -/
def StaticBus.read (b : StaticBus) (addr : Nat) : Option Nat :=
  if addr ≤ 0x3FFF then some (b.rom addr)
  else if addr ≤ 0x7FFF then some (b.mappedRom (addr - 0x4000))
  else if addr ≤ 0x9FFF then b.ppu.read addr
  else if addr ≤ 0xBFFF then some (b.eram (addr - 0xA000))
  else if addr ≤ 0xCFFF then some (b.wram (addr - 0xC000))
  else if addr ≤ 0xDFFF then some (b.mappedWram (addr - 0xD000))
  else if addr ≤ 0xFDFF then some 0
  else if addr ≤ 0xFE9F then b.ppu.read addr
  else if addr ≤ 0xFEFF then some 0
  else if addr = 0xFF00 then some 0xFF
  else if addr ≤ 0xFF03 then some (b.io (addr - 0xFF00))
  else if addr ≤ 0xFF07 then b.timer.read addr
  else if addr ≤ 0xFF0E then some 0
  else if addr = 0xFF0F then b.intController.read addr
  else if addr ≤ 0xFF3F then some (b.io (addr - 0xFF00))
  else if addr ≤ 0xFF4B then b.ppu.read addr
  else if addr ≤ 0xFF7F then some (b.io (addr - 0xFF00))
  else if addr ≤ 0xFFFE then some (b.hram (addr - 0xFF80))
  else if addr = 0xFFFF then b.intController.read addr
  else none

/-- The OAM DMA copy loop inside the `0xFF46` arm of `StaticBus::write`:
`for dst in 0xFE00..=0xFE9F { self.write(dst, self.read(src)); src += 1 }`.
Every destination lies in the OAM arm of `StaticBus::write`, so each inner
recursive `write` call is exactly a `PPU::write` of an OAM byte. -/
def StaticBus.dmaGo (srcBase : Nat) : Nat → Nat → StaticBus → Option StaticBus
  | _, 0, b => some b
  | i, fuel + 1, b => do
    let v ← b.read (srcBase + i)
    let p ← b.ppu.write (0xFE00 + i) v
    StaticBus.dmaGo srcBase (i + 1) fuel { b with ppu := p }

/-- `<StaticBus as Bus>::write` from `src/bus.rs`.  Writes to the cart ROM
region `0..=0x3FFF` are ignored (logged); `0x4000..=0x7FFF` stores into the
`mapped_rom` array; a write into the echo region `0xE000..=0xFDFF` hits
`unreachable!` and panics (`none`); the prohibited regions `0xFEA0..=0xFEFF`
and `0xFF08..=0xFF0E` only log; `0xFF01` additionally appends to the serial
ring `passed_buf` keeping its last 6 bytes; a write to `0xFF46` performs the
synchronous OAM DMA copy. -/
def StaticBus.write (b : StaticBus) (addr val : Nat) : Option StaticBus :=
  if addr ≤ 0x3FFF then some b
  else if addr ≤ 0x7FFF then
    some { b with mappedRom := fun i => if i = addr - 0x4000 then val else b.mappedRom i }
  else if addr ≤ 0x9FFF then (b.ppu.write addr val).map fun p => { b with ppu := p }
  else if addr ≤ 0xBFFF then
    some { b with eram := fun i => if i = addr - 0xA000 then val else b.eram i }
  else if addr ≤ 0xCFFF then
    some { b with wram := fun i => if i = addr - 0xC000 then val else b.wram i }
  else if addr ≤ 0xDFFF then
    some { b with mappedWram := fun i => if i = addr - 0xD000 then val else b.mappedWram i }
  else if addr ≤ 0xFDFF then none
  else if addr ≤ 0xFE9F then (b.ppu.write addr val).map fun p => { b with ppu := p }
  else if addr ≤ 0xFEFF then some b
  else if addr ≤ 0xFF03 then
    let b := { b with io := fun i => if i = addr - 0xFF00 then val else b.io i }
    if addr = 0xFF01 then
      let buf := b.passedBuf ++ [val]
      some { b with passedBuf := if buf.length > 6 then buf.tail else buf }
    else some b
  else if addr ≤ 0xFF07 then (b.timer.write addr val).map fun t => { b with timer := t }
  else if addr ≤ 0xFF0E then some b
  else if addr = 0xFF0F then
    (b.intController.write addr val).map fun ic => { b with intController := ic }
  else if addr ≤ 0xFF3F then
    some { b with io := fun i => if i = addr - 0xFF00 then val else b.io i }
  else if addr ≤ 0xFF4B then
    if addr = 0xFF46 then StaticBus.dmaGo (val * 0x100) 0 0xA0 b
    else (b.ppu.write addr val).map fun p => { b with ppu := p }
  else if addr ≤ 0xFF7F then
    some { b with io := fun i => if i = addr - 0xFF00 then val else b.io i }
  else if addr ≤ 0xFFFE then
    some { b with hram := fun i => if i = addr - 0xFF80 then val else b.hram i }
  else if addr = 0xFFFF then
    (b.intController.write addr val).map fun ic => { b with intController := ic }
  else none

/-- The timer loop of `StaticBus::run_cycles`: tick the timer once per cycle
and latch a TIMER interrupt whenever a tick overflows TIMA. -/
def StaticBus.timerLoop : Nat → Timer → InterruptController →
    Timer × InterruptController
  | 0, t, ic => (t, ic)
  | n + 1, t, ic =>
    let (t', fired) := t.tick
    StaticBus.timerLoop n t' (if fired then ic.interrupt .TIMER else ic)

/-- `<StaticBus as Bus>::run_cycles`: advance the PPU by `cycles` (a panic
inside `PPU::run`'s `render_line` propagates), tick the timer `cycles`
times (latching TIMER interrupts), then latch the PPU's raised interrupt,
if any. -/
def StaticBus.runCycles (b : StaticBus) (cycles : Nat) : Option StaticBus :=
  (b.ppu.runChecked (Int.ofNat cycles)).map fun r =>
    let (t', ic') := StaticBus.timerLoop cycles b.timer b.intController
    let ic' := match r.2 with
      | some i => ic'.interrupt i
      | none => ic'
    { b with ppu := r.1, timer := t', intController := ic' }

/-- `<StaticBus as Bus>::query_interrupt` = `InterruptController::next`
(which reads but does not modify the controller). -/
def StaticBus.queryInterrupt (b : StaticBus) : Option (Option IntSource) :=
  b.intController.next

/-- `<StaticBus as Bus>::clear_interrupt`. -/
def StaticBus.clearInterrupt (b : StaticBus) (s : IntSource) : StaticBus :=
  { b with intController := b.intController.interruptClear s }

/-- `<StaticBus as Bus>::interrupt_pending`. -/
def StaticBus.interruptPending (b : StaticBus) : Bool :=
  b.intController.pending

/-- The `Bus` trait of `src/bus.rs`, as a record of operations over a bus
state type `σ`.  `Cpu<B: Bus>` in `src/cpu.rs` is generic over this
interface; `Option` results model panicking paths of an implementation.
`query_interrupt` reads but never modifies the controller;
`clear_interrupt` cannot panic in the modelled code, while `run_cycles`
can (through `PPU::render_line`), so it too returns `Option`. -/
structure BusOps (σ : Type) where
  write : σ → Nat → Nat → Option σ
  read : σ → Nat → Option Nat
  runCycles : σ → Nat → Option σ
  queryInterrupt : σ → Option (Option IntSource)
  clearInterrupt : σ → IntSource → σ
  interruptPending : σ → Bool

/-- The `Bus` implementation of `StaticBus`. -/
def staticBusOps : BusOps StaticBus where
  write := StaticBus.write
  read := StaticBus.read
  runCycles := StaticBus.runCycles
  queryInterrupt := StaticBus.queryInterrupt
  clearInterrupt := StaticBus.clearInterrupt
  interruptPending := StaticBus.interruptPending

/-- A minimal `Bus` instance for the generic CPU: a plain byte memory
with no peripherals.  `read` returns a byte (the trait's `read` has type
`u8`), `write` updates one cell, and the interrupt/timing hooks are inert. -/
def fnBusOps : BusOps (Nat → Nat) where
  write := fun m a v => some fun x => if x = a then v else m x
  read := fun m a => some (m a &&& 0xFF)
  runCycles := fun m _ => some m
  queryInterrupt := fun _ => some none
  clearInterrupt := fun m _ => m
  interruptPending := fun _ => false

/-- `Cpu<B: Bus>` from `src/cpu.rs`: the SM83 register file, flag bits,
interrupt-enable latch, HALT flag and the owned bus. -/
structure Cpu (σ : Type) where
  a : Nat
  b : Nat
  c : Nat
  d : Nat
  e : Nat
  h : Nat
  l : Nat
  sp : Nat
  pc : Nat
  zF : Bool
  nF : Bool
  hF : Bool
  cF : Bool
  ime : Bool
  sleep : Bool
  bus : σ

/-- `Cpu::new` (instantiated at `StaticBus`): the DMG post-boot register
state, followed by the single bus write of `0x90` to `0xFF44`. -/
def Cpu.new (bus : StaticBus) : Option (Cpu StaticBus) :=
  (StaticBus.write bus 0xFF44 0x90).map fun b =>
    { a := 0x01, b := 0x00, c := 0x13, d := 0x00, e := 0xD8, h := 0x01, l := 0x4D
      sp := 0xFFFE, pc := 0x0100, hF := true, cF := true, nF := false, zF := true
      ime := false, sleep := false, bus := b }

/-- `Cpu::get_f`: pack the four flag bits into the F byte
(`Z:0x80, N:0x40, H:0x20, C:0x10`; low nibble zero). -/
def Cpu.getF (cpu : Cpu σ) : Nat :=
  (if cpu.zF then 0x80 else 0) ||| (if cpu.nF then 0x40 else 0) |||
  (if cpu.hF then 0x20 else 0) ||| (if cpu.cF then 0x10 else 0)

/-- `Cpu::push_stack`: decrement SP, write the high byte, decrement SP,
write the low byte.  The source decrements with plain `-`, which wraps
mod 2^16 in release builds. -/
def Cpu.pushStack (B : BusOps σ) (cpu : Cpu σ) (val : Nat) : Option (Cpu σ) := do
  let sp1 := (cpu.sp + 65535) % 65536
  let bus ← B.write cpu.bus sp1 ((val >>> 8) &&& 0xFF)
  let sp2 := (sp1 + 65535) % 65536
  let bus ← B.write bus sp2 (val &&& 0xFF)
  some { cpu with sp := sp2, bus := bus }

/-- `Cpu::pop_stack`: read the low byte at SP, the high byte at SP+1, and
advance SP by two.  The source increments with plain `+`, which wraps
mod 2^16 in release builds. -/
def Cpu.popStack (B : BusOps σ) (cpu : Cpu σ) : Option (Cpu σ × Nat) := do
  let lo ← B.read cpu.bus cpu.sp
  let sp1 := (cpu.sp + 1) % 65536
  let hi ← B.read cpu.bus sp1
  some ({ cpu with sp := (sp1 + 1) % 65536 }, lo ||| (hi <<< 8))

/-- The `POP AF` arm (`r16stk = 3`) of `Cpu::execute_instr`: pop a word,
load A from its high byte and the four flags from bits 7..4 of its low
byte; 3 machine cycles. -/
def Cpu.popAF (B : BusOps σ) (cpu : Cpu σ) : Option (Cpu σ × Nat) := do
  let (cpu, val) ← cpu.popStack B
  some ({ cpu with
            a := (val >>> 8) &&& 0xFF
            zF := decide ((val &&& 0x80) = 0x80)
            nF := decide ((val &&& 0x40) = 0x40)
            hF := decide ((val &&& 0x20) = 0x20)
            cF := decide ((val &&& 0x10) = 0x10) }, 3)

/-- The 16-bit value assembled by the `PUSH AF` arm (`r16stk = 3`) of
`Cpu::execute_instr`: A in the high byte, the flag bits `0x80/0x40/0x20/0x10`
ORed into the low byte. -/
def Cpu.pushAFValue (cpu : Cpu σ) : Nat :=
  let v := cpu.a <<< 8
  let v := if cpu.zF then v ||| 0x80 else v
  let v := if cpu.nF then v ||| 0x40 else v
  let v := if cpu.hF then v ||| 0x20 else v
  if cpu.cF then v ||| 0x10 else v

/-- The `PUSH AF` arm of `Cpu::execute_instr`: push the assembled AF word;
4 machine cycles. -/
def Cpu.pushAF (B : BusOps σ) (cpu : Cpu σ) : Option (Cpu σ × Nat) :=
  (cpu.pushStack B cpu.pushAFValue).map fun c => (c, 4)

/-- `Cpu::wr16mem`: write a byte through an `[r16mem]` operand
(0 = `(BC)`, 1 = `(DE)`, 2 = `(HL+)`, 3 = `(HL-)`).  The `(HL+)`/`(HL-)`
forms write at HL and then increment/decrement HL with wrapping 16-bit
arithmetic (`wrapping_add`/`wrapping_sub` in the source). -/
def Cpu.wr16mem (B : BusOps σ) (cpu : Cpu σ) (r16mem val : Nat) : Option (Cpu σ) :=
  if r16mem = 0 then
    (B.write cpu.bus ((cpu.b <<< 8) ||| cpu.c) val).map fun bus => { cpu with bus := bus }
  else if r16mem = 1 then
    (B.write cpu.bus ((cpu.d <<< 8) ||| cpu.e) val).map fun bus => { cpu with bus := bus }
  else if r16mem = 2 then
    let hl := (cpu.h <<< 8) ||| cpu.l
    (B.write cpu.bus hl val).map fun bus =>
      let hl' := (hl + 1) % 65536
      { cpu with bus := bus, h := hl' >>> 8, l := hl' &&& 0xFF }
  else if r16mem = 3 then
    let hl := (cpu.h <<< 8) ||| cpu.l
    (B.write cpu.bus hl val).map fun bus =>
      let hl' := (hl + 65535) % 65536
      { cpu with bus := bus, h := hl' >>> 8, l := hl' &&& 0xFF }
  else none

/-- `Cpu::rr16mem`: read a byte through an `[r16mem]` operand.  The `(HL+)`
form reads at HL then increments HL (the source uses a plain `+ 1`, which
wraps mod 2^16 in release builds); the `(HL-)` form reads at HL then
decrements HL with `wrapping_sub`. -/
def Cpu.rr16mem (B : BusOps σ) (cpu : Cpu σ) (r16mem : Nat) : Option (Cpu σ × Nat) :=
  if r16mem = 0 then
    (B.read cpu.bus ((cpu.b <<< 8) ||| cpu.c)).map fun v => (cpu, v)
  else if r16mem = 1 then
    (B.read cpu.bus ((cpu.d <<< 8) ||| cpu.e)).map fun v => (cpu, v)
  else if r16mem = 2 then
    let hl := (cpu.h <<< 8) ||| cpu.l
    (B.read cpu.bus hl).map fun v =>
      let hl' := (hl + 1) % 65536
      ({ cpu with h := hl' >>> 8, l := hl' &&& 0xFF }, v)
  else if r16mem = 3 then
    let hl := (cpu.h <<< 8) ||| cpu.l
    (B.read cpu.bus hl).map fun v =>
      let hl' := (hl + 65535) % 65536
      ({ cpu with h := hl' >>> 8, l := hl' &&& 0xFF }, v)
  else none

/-- The `LD [r16mem], A` arm of `Cpu::execute_instr` (`LD (HL+),A` is
`r16mem = 2`); 2 machine cycles. -/
def Cpu.ldR16MemA (B : BusOps σ) (cpu : Cpu σ) (m : Nat) : Option (Cpu σ × Nat) :=
  (cpu.wr16mem B m cpu.a).map fun c => (c, 2)

/-- The `LD A, [r16mem]` arm of `Cpu::execute_instr` (`LD A,(HL-)` is
`r16mem = 3`); 2 machine cycles. -/
def Cpu.ldAR16Mem (B : BusOps σ) (cpu : Cpu σ) (m : Nat) : Option (Cpu σ × Nat) :=
  (cpu.rr16mem B m).map fun cv => ({ cv.1 with a := cv.2 }, 2)

/-- `does_bit3_overflow` from `src/cpu.rs`: carry out of bit 3 of `a + b`. -/
def doesBit3Overflow (a b : Nat) : Bool :=
  (0xF - (a &&& 0xF)) < (b &&& 0xF)

/-- The `ADD A, Imm8` arm of `Cpu::execute_instr`: `A ← A + i` with
wrapping 8-bit addition; H from bit-3 carry, C from bit-7 carry, Z from the
result, N cleared; 2 machine cycles. -/
def Cpu.addAImm8 (cpu : Cpu σ) (i : Nat) : Cpu σ × Nat :=
  let hF := doesBit3Overflow i cpu.a
  let sum := i + cpu.a
  let newVal := sum % 256
  ({ cpu with hF := hF, cF := decide (256 ≤ sum), zF := decide (newVal = 0)
              nF := false, a := newVal }, 1 + 1)

/-- The `DAA` arm of `Cpu::execute_instr`: decimal-adjust A after an
addition (`N = 0`: add `0x60` when C or `A > 0x99`, setting C, then add `6`
when H or the low nibble exceeds 9) or a subtraction (`N = 1`: subtract
`0x60` when C, then `6` when H); finally Z from the result and H cleared.
All byte arithmetic wraps mod 256 (`wrapping_add`/`wrapping_sub`). -/
def Cpu.daa (cpu : Cpu σ) : Cpu σ × Nat :=
  let cpu :=
    if cpu.nF then
      let cpu := if cpu.cF then { cpu with a := (cpu.a + 256 - 0x60) % 256 } else cpu
      if cpu.hF then { cpu with a := (cpu.a + 256 - 0x6) % 256 } else cpu
    else
      let cpu :=
        if cpu.cF ∨ 0x99 < cpu.a then { cpu with a := (cpu.a + 0x60) % 256, cF := true }
        else cpu
      if cpu.hF ∨ 0x09 < (cpu.a &&& 0x0F) then { cpu with a := (cpu.a + 0x6) % 256 }
      else cpu
  ({ cpu with zF := decide (cpu.a = 0), hF := false }, 1)

/-- `IntSource`'s interrupt vector, from `Cpu::handle_interrupt`. -/
def IntSource.vector : IntSource → Nat
  | .VBLANK => 0x40
  | .LCD => 0x48
  | .TIMER => 0x50
  | .SERIAL => 0x58
  | .JOYPAD => 0x60

/-- `Cpu::handle_interrupt`: clear IME, push PC, jump to the vector, clear
the source's IF bit; 5 machine cycles. -/
def Cpu.handleInterrupt (B : BusOps σ) (cpu : Cpu σ) (i : IntSource) :
    Option (Cpu σ × Nat) := do
  let cpu := { cpu with ime := false }
  let cpu ← cpu.pushStack B cpu.pc
  let cpu := { cpu with pc := i.vector }
  let cpu := { cpu with bus := B.clearInterrupt cpu.bus i }
  some (cpu, 5)

/-- `Cpu::run_one`, halted path: when `sleep` is set, query the bus for a
pending enabled interrupt; if one exists, wake and dispatch it through
`handle_interrupt` (note: without consulting IME), else keep the rest of the
system running for one machine cycle.  The non-halted path (IME dispatch at
the instruction boundary followed by fetch/decode/execute of the full
opcode interpreter) is outside the scope of the modelled claims and is left
as `none`. -/
def Cpu.runOne (B : BusOps σ) (cpu : Cpu σ) : Option (Cpu σ × Nat) :=
  if cpu.sleep then
    match B.queryInterrupt cpu.bus with
    | none => none
    | some (some i) => do
      let cpu := { cpu with sleep := false }
      let (cpu, cycles) ← cpu.handleInterrupt B i
      let bus ← B.runCycles cpu.bus cycles
      some ({ cpu with bus := bus }, cycles)
    | some none => do
      let bus ← B.runCycles cpu.bus 1
      some ({ cpu with bus := bus }, 1)
  else none

/-- Is `b` a UTF-8 continuation byte (`0x80..=0xBF`)? -/
def utf8Cont (b : Nat) : Bool := 0x80 ≤ b ∧ b ≤ 0xBF

/-- UTF-8 validity of a byte list, per RFC 3629 — the success condition of
the `String::from_utf8` calls in `get_cart_header` (whose failure is a
panicking `expect`). -/
def utf8Valid : List Nat → Bool
  | [] => true
  | b0 :: r =>
    if b0 ≤ 0x7F then utf8Valid r
    else if 0xC2 ≤ b0 ∧ b0 ≤ 0xDF then
      match r with
      | b1 :: r1 => utf8Cont b1 && utf8Valid r1
      | [] => false
    else if 0xE0 ≤ b0 ∧ b0 ≤ 0xEF then
      match r with
      | b1 :: b2 :: r2 =>
        (if b0 = 0xE0 then decide (0xA0 ≤ b1 ∧ b1 ≤ 0xBF)
         else if b0 = 0xED then decide (0x80 ≤ b1 ∧ b1 ≤ 0x9F)
         else utf8Cont b1) && utf8Cont b2 && utf8Valid r2
      | _ => false
    else if 0xF0 ≤ b0 ∧ b0 ≤ 0xF4 then
      match r with
      | b1 :: b2 :: b3 :: r3 =>
        (if b0 = 0xF0 then decide (0x90 ≤ b1 ∧ b1 ≤ 0xBF)
         else if b0 = 0xF4 then decide (0x80 ≤ b1 ∧ b1 ≤ 0x8F)
         else utf8Cont b1) && utf8Cont b2 && utf8Cont b3 && utf8Valid r3
      | _ => false
    else false

/-- `CartridgeData` from `src/cart/mod.rs`, reduced to its byte spans: the
ROM and RAM slices with their lengths (indexing past a length panics). -/
structure CartData where
  rom : Nat → Nat
  romLen : Nat
  ram : Nat → Nat
  ramLen : Nat

/-- `CartridgeHeader` from `src/cart/mod.rs` (title and manufacturer code
kept as byte lists). -/
structure CartridgeHeader where
  title : List Nat
  manufacturerCode : List Nat
  licenseeCode : List Nat
  isSgb : Bool
  cartType : Nat
  romSize : Nat
  ramSize : Nat
  numRomBanks : Nat

/-- `get_cart_header` from `src/cart/mod.rs`: title and manufacturer bytes
are read up to the first 0 and must be valid UTF-8 (`expect` panics
otherwise); ROM size is `32768 * (1 << rom[0x148])`, the RAM-size code maps
through the fixed table (`unreachable!` on other codes), and
`num_rom_banks = rom_size / 16384`.  The source indexes the ROM slice up to
`0x149`; we conservatively require the whole header to be in bounds. -/
def getCartHeader (c : CartData) : Option CartridgeHeader :=
  if c.romLen ≤ 0x149 then none
  else
    let titleBytes := ((List.range 16).map fun k => c.rom (0x134 + k)).takeWhile (· ≠ 0)
    let mfrBytes := ((List.range 5).map fun k => c.rom (0x13F + k)).takeWhile (· ≠ 0)
    if ¬ utf8Valid titleBytes then none
    else if ¬ utf8Valid mfrBytes then none
    else
      let romSize := 32768 * 2 ^ c.rom 0x148
      (if c.rom 0x149 = 0 then some 0
       else if c.rom 0x149 = 2 then some 8192
       else if c.rom 0x149 = 3 then some 32768
       else if c.rom 0x149 = 4 then some 131072
       else if c.rom 0x149 = 5 then some 65536
       else none).map fun ramSize =>
        { title := titleBytes, manufacturerCode := mfrBytes, licenseeCode := []
          isSgb := c.rom 0x146 ≠ 0x03, cartType := c.rom 0x147
          romSize := romSize, ramSize := ramSize, numRomBanks := romSize / 16384 }

/-- `MBC1` from `src/cart/mbc1.rs`. -/
structure MBC1 where
  ramEn : Bool
  romBankNum : Nat
  secondaryBankReg : Nat
  advBankMode : Bool
deriving DecidableEq, Repr

/-- `MBC1::new`. -/
def MBC1.new : MBC1 := ⟨false, 1, 0, false⟩

/-- The wrap-around loop of the MBC1 bank-0 read:
`while addr >= rom_size { addr &= !mask; mask >>= 1 }`, `mask` starting at
`1 << 20`.  Clearing proceeds bit 20 down to bit 0; once the mask is
exhausted the Rust loop can no longer change `addr` and would spin forever
(`none`) — unreachable when `rom_size > 0` and `addr < 2^21`. -/
def mbc1WrapGe (romSize : Nat) : Nat → Nat → Option Nat
  | addr, 0 => if romSize ≤ addr then none else some addr
  | addr, fuel + 1 =>
    if romSize ≤ addr then mbc1WrapGe romSize (addr - (addr &&& 2 ^ fuel)) fuel
    else some addr

/-- The wrap-around loop of the MBC1 banked read — identical except the
strict comparison `while addr > rom_size`. -/
def mbc1WrapGt (romSize : Nat) : Nat → Nat → Option Nat
  | addr, 0 => if romSize < addr then none else some addr
  | addr, fuel + 1 =>
    if romSize < addr then mbc1WrapGt romSize (addr - (addr &&& 2 ^ fuel)) fuel
    else some addr

/-- `MBC1::write` from `src/cart/mbc1.rs`: RAM enable, primary ROM-bank
register (5-bit mask, then the 0→1 fix-up, then the banks-available mask
`(1 << ilog2(num_rom_banks)) - 1`), secondary 2-bit register (latched only
for `num_rom_banks >= 64` or `ram_size >= 32767`), bank-mode select, and
banked RAM writes.  `Nat.log2` agrees with `u16::ilog2` on positive
inputs. -/
def MBC1.write (m : MBC1) (c : CartData) (addr val : Nat) :
    Option (MBC1 × CartData) :=
  if addr ≤ 0x1FFF then
    some ({ m with ramEn := (val &&& 0xF) = 0xA }, c)
  else if addr ≤ 0x3FFF then do
    let v := val &&& 0x1F
    let v := if v = 0 then 1 else v
    let hdr ← getCartHeader c
    let bankMask := (1 <<< Nat.log2 hdr.numRomBanks) - 1
    some ({ m with romBankNum := v &&& bankMask }, c)
  else if addr ≤ 0x5FFF then do
    let hdr ← getCartHeader c
    if 64 ≤ hdr.numRomBanks ∨ 32767 ≤ hdr.ramSize then
      some ({ m with secondaryBankReg := val &&& 0x3 }, c)
    else some (m, c)
  else if addr ≤ 0x7FFF then
    some ({ m with advBankMode := (val &&& 0x1) = 0x1 }, c)
  else if 0xA000 ≤ addr ∧ addr ≤ 0xBFFF then
    if ¬ m.ramEn then some (m, c)
    else
      let offset := addr - 0xA000
      let offset := if m.advBankMode then offset ||| (m.secondaryBankReg <<< 13)
                    else offset
      if offset < c.ramLen then
        some (m, { c with ram := fun i => if i = offset then val else c.ram i })
      else none
  else none

/-- `MBC1::read` from `src/cart/mbc1.rs`: bank-0 reads apply the secondary
register (advanced mode only) and the `>=` wrap loop; banked reads at
`0x4000..=0x7FFF` OR in `rom_bank_num << 14` (with
`assert!(rom_bank_num < 32)`) and `secondary << 19`, then the `>` wrap
loop; RAM reads return `0xFF` when RAM is disabled. -/
def MBC1.read (m : MBC1) (c : CartData) (addr : Nat) : Option Nat :=
  if addr ≤ 0x3FFF then do
    let hdr ← getCartHeader c
    let a := if m.advBankMode then addr ||| (m.secondaryBankReg <<< 19) else addr
    let a ← mbc1WrapGe hdr.romSize a 21
    if a < c.romLen then some (c.rom a) else none
  else if addr ≤ 0x7FFF then do
    let hdr ← getCartHeader c
    let a := (addr - 0x4000) ||| (m.romBankNum <<< 14)
    if 32 ≤ m.romBankNum then none
    else do
      let a := a ||| (m.secondaryBankReg <<< 19)
      let a ← mbc1WrapGt hdr.romSize a 21
      if a < c.romLen then some (c.rom a) else none
  else if 0xA000 ≤ addr ∧ addr ≤ 0xBFFF then
    if ¬ m.ramEn then some 0xFF
    else
      let offset := addr - 0xA000
      let offset := if m.advBankMode then offset + (m.secondaryBankReg <<< 13)
                    else offset
      if offset < c.ramLen then some (c.ram offset) else none
  else none

/-! ### Timing projection of the PPU mode machine

`PPU::run` changes `mode`, `ly` and `r_cyc` independently of every other
field (registers only select which `Option IntSource` is returned, and the
render helpers only touch the window counter and the omitted frame buffer).
The projection below captures that autonomous timing machine; the
simulation lemmas connect it to `PPU.run`. -/

/-- The timing state of the PPU: current mode, current scanline, and the
machine cycles remaining in the mode. -/
structure TProj where
  mode : PpuMode
  ly : Nat
  rCyc : Int
deriving DecidableEq, Repr

/-- Project a PPU state to its timing state. -/
def PPU.proj (p : PPU) : TProj := ⟨p.mode, p.ly, p.rCyc⟩

/-- One machine cycle of the PPU timing machine: the `mode`/`ly`/`r_cyc`
effect of `PPU::run` with `cycles = 1`. -/
def tstep (t : TProj) : TProj :=
  if 1 < t.rCyc then ⟨t.mode, t.ly, t.rCyc - 1⟩
  else
    let over := 1 - t.rCyc
    match t.mode with
    | .OAMSCAN => ⟨.DRAW, t.ly, 43 - over⟩
    | .DRAW => ⟨.HBLANK, t.ly, 51 - over⟩
    | .HBLANK =>
      let ly := (t.ly + 1) % 256
      if ly = 143 then ⟨.VBLANK, ly, 114 - over⟩ else ⟨.OAMSCAN, ly, 20 - over⟩
    | .VBLANK =>
      if t.ly = 153 then ⟨.OAMSCAN, 0, 20 - over⟩
      else ⟨.VBLANK, (t.ly + 1) % 256, 114 - over⟩

/-- Iterate `tstep`. -/
def tstepN : Nat → TProj → TProj
  | 0, t => t
  | n + 1, t => tstepN n (tstep t)

/-- Drive `PPU::run` one machine cycle at a time, `n` times. -/
def PPU.runN : Nat → PPU → PPU
  | 0, p => p
  | n + 1, p => PPU.runN n (p.run 1).1

/-- The timing state at the start of scanline `i` of a frame: lines
`0..=142` begin in OAM scan with a budget of 20 cycles; lines `143..=153`
are VBLANK lines with a budget of 114 cycles. -/
def lineStart (i : Nat) : TProj :=
  if i < 143 then ⟨.OAMSCAN, i, 20⟩ else ⟨.VBLANK, i, 114⟩

/-- Does this timing state enter VBLANK on the next cycle?  (The HBLANK
budget expires and the incremented LY reaches 143.) -/
def tHit (t : TProj) : Bool :=
  t.mode = .HBLANK ∧ ¬(1 < t.rCyc) ∧ (t.ly + 1) % 256 = 143

/-- Count, over `n` single-cycle steps of the timing machine, the steps
that enter VBLANK. -/
def countHit : Nat → TProj → Nat
  | 0, _ => 0
  | n + 1, t => (if tHit t then 1 else 0) + countHit n (tstep t)

/-- Count, over `n` single-cycle calls of `PPU::run`, the calls that return
the VBLANK interrupt source. -/
def PPU.countVB : Nat → PPU → Nat
  | 0, _ => 0
  | n + 1, p =>
    (if (p.run 1).2 = some IntSource.VBLANK then 1 else 0) + PPU.countVB n (p.run 1).1

/-! ### Helper values and lemmas for the claim theorems -/

/-- A zeroed `StaticBus` (the state `StaticBus::new` produces from an
all-zero ROM stream). -/
def sbZero : StaticBus where
  rom := fun _ => 0
  mappedRom := fun _ => 0
  ppu := PPU.new
  eram := fun _ => 0
  wram := fun _ => 0
  mappedWram := fun _ => 0
  timer := Timer.new
  intController := InterruptController.new
  io := fun _ => 0
  hram := fun _ => 0
  passedBuf := []

/-- A CPU state over a unit bus holding `a` in the accumulator; used for
claims that only concern the accumulator and flags. -/
def mkCpuA (a : Nat) : Cpu Unit where
  a := a
  b := 0
  c := 0
  d := 0
  e := 0
  h := 0
  l := 0
  sp := 0
  pc := 0
  zF := false
  nF := false
  hF := false
  cF := false
  ime := false
  sleep := false
  bus := ()

/-- Spec-side helper: the interrupt source whose `IF` bit is `b`. -/
def srcOfBit (b : Nat) : Option IntSource :=
  if b = 0x1 then some .VBLANK
  else if b = 0x2 then some .LCD
  else if b = 0x4 then some .TIMER
  else if b = 0x8 then some .SERIAL
  else if b = 0x10 then some .JOYPAD
  else none

/-- Nibble validity of a packed-BCD byte. -/
def validPackedBCD (a : Nat) : Prop := (a >>> 4) ≤ 9 ∧ (a &&& 0xF) ≤ 9

instance (a : Nat) : Decidable (validPackedBCD a) := by
  unfold validPackedBCD
  infer_instance

/-- The decimal value of a packed-BCD byte. -/
def bcdToNat (a : Nat) : Nat := 10 * (a >>> 4) + (a &&& 0xF)

/-- A concrete CPU over a byte memory whose stack top (at `SP = 0xC100`)
holds the word `0x12AB`. -/
def cpuFn0 : Cpu (Nat → Nat) where
  a := 0
  b := 0
  c := 0
  d := 0
  e := 0
  h := 0
  l := 0
  sp := 0xC100
  pc := 0
  zF := false
  nF := false
  hF := false
  cF := false
  ime := false
  sleep := false
  bus := fun x => if x = 0xC100 then 0xAB else if x = 0xC101 then 0x12 else 0

/-- A concrete CPU over a zeroed byte memory with `HL = 0xC000` and
`A = 5`. -/
def cpuHL : Cpu (Nat → Nat) where
  a := 5
  b := 0
  c := 0
  d := 0
  e := 0
  h := 0xC0
  l := 0
  sp := 0
  pc := 0
  zF := false
  nF := false
  hF := false
  cF := false
  ime := false
  sleep := false
  bus := fun _ => 0

/-- The zeroed bus with one enabled pending interrupt: `IE = 1`, `IF = 1`
(VBLANK). -/
def sbIF : StaticBus := { sbZero with intController := ⟨1, 1⟩ }

/-- A halted CPU (`sleep = true`, `IME = false`) with `PC = 0x1234`,
`SP = 0xC100` over `sbIF`. -/
def cpuC3 : Cpu StaticBus where
  a := 0
  b := 0
  c := 0
  d := 0
  e := 0
  h := 0
  l := 0
  sp := 0xC100
  pc := 0x1234
  zF := false
  nF := false
  hF := false
  cF := false
  ime := false
  sleep := true
  bus := sbIF

/-- A 2-bank (32 KiB) MBC1 cartridge whose ROM holds `0xAA` at offset
`0x4000` and zeroes elsewhere (header: type/size/RAM codes all zero). -/
def cartC4 : CartData where
  rom := fun a => if a = 0x4000 then 0xAA else 0
  romLen := 32768
  ram := fun _ => 0
  ramLen := 0

/-- A 4-bank (64 KiB) MBC1 cartridge with ROM-size code 1 and `0xBB` at
offset `0x4000`. -/
def cartC4w : CartData where
  rom := fun a => if a = 0x148 then 1 else if a = 0x4000 then 0xBB else 0
  romLen := 65536
  ram := fun _ => 0
  ramLen := 0

theorem PPU.proj_run1 (p : PPU) : ((p.run 1).1).proj = tstep p.proj := by
  rcases p with ⟨vram, oam, lcdc, stat, scy, scx, ly, lyc, bgp, obp0, obp1, wy, wx, wt, wc, mode, rCyc⟩
  simp only [PPU.run, tstep, PPU.proj, PPU.renderLine]
  split
  · rfl
  · cases mode <;>
      simp only [apply_ite Prod.fst, apply_ite PPU.proj, ite_self] <;>
      split_ifs <;> rfl

theorem PPU.stat_run1 (p : PPU) : ((p.run 1).1).stat = p.stat := by
  rcases p with ⟨vram, oam, lcdc, stat, scy, scx, ly, lyc, bgp, obp0, obp1, wy, wx, wt, wc, mode, rCyc⟩
  simp only [PPU.run, PPU.renderLine]
  split
  · rfl
  · cases mode <;>
      simp only [apply_ite Prod.fst, apply_ite PPU.stat, ite_self] <;>
      split_ifs <;> rfl

theorem PPU.lyc_run1 (p : PPU) : ((p.run 1).1).lyc = p.lyc := by
  rcases p with ⟨vram, oam, lcdc, stat, scy, scx, ly, lyc, bgp, obp0, obp1, wy, wx, wt, wc, mode, rCyc⟩
  simp only [PPU.run, PPU.renderLine]
  split
  · rfl
  · cases mode <;>
      simp only [apply_ite Prod.fst, apply_ite PPU.lyc, ite_self] <;>
      split_ifs <;> rfl

/-- `PPU::run` with one cycle returns the VBLANK source exactly when the
timing machine enters VBLANK on this cycle and the LYC interrupt does not
preempt it (STAT bit 6 set with `LYC = 143`). -/
theorem PPU.vb_iff (p : PPU) :
    (p.run 1).2 = some IntSource.VBLANK ↔
      (tHit p.proj = true ∧ ¬((p.stat &&& 0x40) ≠ 0 ∧ p.lyc = 143)) := by
  rcases p with ⟨vram, oam, lcdc, stat, scy, scx, ly, lyc, bgp, obp0, obp1, wy, wx, wt, wc, mode, rCyc⟩
  simp only [PPU.run, tHit, PPU.proj, PPU.renderLine]
  split
  · simp only [decide_eq_true_eq]
    simp
    intros
    omega
  · cases mode <;>
      simp only [apply_ite Prod.snd, ite_self, decide_eq_true_eq] <;>
      (try split_ifs) <;> simp_all <;> omega

theorem tstepN_add (a b : Nat) (t : TProj) :
    tstepN (a + b) t = tstepN b (tstepN a t) := by
  induction a generalizing t with
  | zero => simp [tstepN]
  | succ n ih =>
    have hn : n + 1 + b = (n + b) + 1 := by omega
    rw [hn]
    show tstepN (n + b) (tstep t) = _
    rw [ih]
    rfl

theorem PPU.proj_runN (n : Nat) (p : PPU) :
    (PPU.runN n p).proj = tstepN n p.proj := by
  induction n generalizing p with
  | zero => rfl
  | succ n ih =>
    show (PPU.runN n (p.run 1).1).proj = tstepN n (tstep p.proj)
    rw [ih, PPU.proj_run1]

theorem PPU.countVB_eq (n : Nat) (p : PPU) :
    p.countVB n =
      if (p.stat &&& 0x40) ≠ 0 ∧ p.lyc = 143 then 0 else countHit n p.proj := by
  induction n generalizing p with
  | zero => simp [PPU.countVB, countHit]
  | succ n ih =>
    show (if (p.run 1).2 = some IntSource.VBLANK then 1 else 0) + PPU.countVB n (p.run 1).1 = _
    rw [ih, PPU.stat_run1, PPU.lyc_run1, PPU.proj_run1]
    by_cases hb : (p.stat &&& 0x40) ≠ 0 ∧ p.lyc = 143
    · rw [if_pos hb, if_pos hb]
      have : ¬((p.run 1).2 = some IntSource.VBLANK) := by
        rw [PPU.vb_iff]
        exact fun h => h.2 hb
      rw [if_neg this]
    · rw [if_neg hb, if_neg hb]
      show _ = (if tHit p.proj then 1 else 0) + countHit n (tstep p.proj)
      have : ((p.run 1).2 = some IntSource.VBLANK) ↔ (tHit p.proj = true) := by
        rw [PPU.vb_iff]
        exact ⟨fun h => h.1, fun h => ⟨h, hb⟩⟩
      rw [if_congr this rfl rfl]

set_option maxRecDepth 40000

theorem countHit_add (a b : Nat) (t : TProj) :
    countHit (a + b) t = countHit a t + countHit b (tstepN a t) := by
  induction a generalizing t with
  | zero => simp [countHit, tstepN]
  | succ n ih =>
    have hn : n + 1 + b = (n + b) + 1 := by omega
    rw [hn]
    show (if tHit t then 1 else 0) + countHit (n + b) (tstep t) = _
    rw [ih]
    show _ = (if tHit t then 1 else 0) + countHit n (tstep t) + countHit b (tstepN n (tstep t))
    omega

theorem lineStart_step : ∀ i < 153, tstepN 114 (lineStart i) = lineStart (i + 1) := by
  decide

theorem lineStart_last : tstepN 114 (lineStart 153) = lineStart 0 := by decide

theorem lineStart_preWrap : tstepN 113 (lineStart 153) = ⟨.VBLANK, 153, 1⟩ := by decide

theorem tstepN_line : ∀ i < 154, tstepN (114 * i) (lineStart 0) = lineStart i := by
  intro i hi
  induction i with
  | zero => rfl
  | succ n ih =>
    have hmul : 114 * (n + 1) = 114 * n + 114 := by ring
    rw [hmul, tstepN_add, ih (by omega)]
    exact lineStart_step n (by omega)

theorem countHit_line : ∀ i < 154,
    countHit 114 (lineStart i) = if i = 142 then 1 else 0 := by
  decide

theorem countHit_lines : ∀ i ≤ 154,
    countHit (114 * i) (lineStart 0) = if 143 ≤ i then 1 else 0 := by
  intro i hi
  induction i with
  | zero => simp [countHit]
  | succ n ih =>
    have hmul : 114 * (n + 1) = 114 * n + 114 := by ring
    rw [hmul, countHit_add, ih (by omega), tstepN_line n (by omega),
        countHit_line n (by omega)]
    by_cases h142 : n = 142
    · subst h142
      norm_num
    · by_cases h143 : 143 ≤ n
      · rw [if_pos h143, if_neg h142, if_pos (by omega)]
      · rw [if_neg h143, if_neg h142, if_neg (by omega)]

theorem countHit_frame_one : countHit 17556 ⟨.OAMSCAN, 0, 20⟩ = 1 := by
  have h := countHit_lines 154 (by omega)
  norm_num at h
  exact h

theorem tstepN_frame : tstepN 17556 (lineStart 0) = lineStart 0 := by
  have h := tstepN_line 153 (by omega)
  have : (17556 : Nat) = 114 * 153 + 114 := by norm_num
  rw [this, tstepN_add, h, lineStart_last]

theorem tstepN_17555 : tstepN 17555 (lineStart 0) = ⟨.VBLANK, 153, 1⟩ := by
  have h := tstepN_line 153 (by omega)
  have : (17555 : Nat) = 114 * 153 + 113 := by norm_num
  rw [this, tstepN_add, h, lineStart_preWrap]

theorem testBit_add_high (hi lo : Nat) (hlo : lo < 256) (i : Nat) :
    (256 * hi + lo).testBit i = if i < 8 then lo.testBit i else hi.testBit (i - 8) := by
  by_cases h : i < 8
  · have h1 : (256 * hi + lo) % 2 ^ 8 = lo := by omega
    have h2 := Nat.testBit_mod_two_pow (256 * hi + lo) 8 i
    rw [h1] at h2
    simp only [h, decide_True, Bool.true_and] at h2
    simp [h, h2]
  · have h1 : (256 * hi + lo) >>> 8 = hi := by
      rw [Nat.shiftRight_eq_div_pow]
      omega
    have h2 := Nat.testBit_shiftRight (i := 8) (j := i - 8) (256 * hi + lo)
    rw [h1] at h2
    have h3 : 8 + (i - 8) = i := by omega
    rw [h3] at h2
    simp [h, h2]

theorem low_and (hi lo m : Nat) (hlo : lo < 256) (hm : m < 256) :
    (256 * hi + lo) &&& m = lo &&& m := by
  apply Nat.eq_of_testBit_eq
  intro i
  rw [Nat.testBit_and, Nat.testBit_and, testBit_add_high hi lo hlo]
  by_cases h : i < 8
  · simp [h]
  · have hc : m.testBit i = false := by
      apply Nat.testBit_lt_two_pow
      calc m < 256 := hm
        _ = 2 ^ 8 := by norm_num
        _ ≤ 2 ^ i := Nat.pow_le_pow_right (by norm_num) (by omega)
    simp [h, hc]

theorem or_lt_256 {x y : Nat} (hx : x < 256) (hy : y < 256) : x ||| y < 256 := by
  have h := Nat.or_lt_two_pow (n := 8) (x := x) (y := y) (by norm_num; omega) (by norm_num; omega)
  norm_num at h
  omega

theorem high_or (hi s c : Nat) (hs : s < 256) (hc : c < 256) :
    (256 * hi + s) ||| c = 256 * hi + (s ||| c) := by
  have hsc : s ||| c < 256 := or_lt_256 hs hc
  apply Nat.eq_of_testBit_eq
  intro i
  rw [Nat.testBit_lor, testBit_add_high hi s hs, testBit_add_high hi (s ||| c) hsc]
  by_cases h : i < 8
  · simp [h, Nat.testBit_lor]
  · have hcb : c.testBit i = false := by
      apply Nat.testBit_lt_two_pow
      calc c < 256 := hc
        _ = 2 ^ 8 := by norm_num
        _ ≤ 2 ^ i := Nat.pow_le_pow_right (by norm_num) (by omega)
    simp [h, hcb]

theorem split16 (hi lo : Nat) (hlo : lo < 256) : (hi <<< 8) ||| lo = 256 * hi + lo := by
  have h0 : hi <<< 8 = 256 * hi + 0 := by
    rw [Nat.shiftLeft_eq]
    ring
  rw [h0, high_or hi 0 lo (by norm_num) hlo]
  simp

theorem shift_high (hi lo : Nat) (hlo : lo < 256) : (256 * hi + lo) >>> 8 = hi := by
  rw [Nat.shiftRight_eq_div_pow]
  omega

theorem and_FF (lo : Nat) (h : lo < 256) : lo &&& 0xFF = lo := by
  have h2 := Nat.and_pow_two_sub_one_eq_mod lo 8
  norm_num at h2
  omega

theorem and_FFF0 (hi lo : Nat) (hhi : hi < 256) (hlo : lo < 256) :
    (256 * hi + lo) &&& 0xFFF0 = 256 * hi + (lo &&& 0xF0) := by
  have hlof : lo &&& 0xF0 < 256 := lt_of_le_of_lt Nat.and_le_right (by norm_num)
  apply Nat.eq_of_testBit_eq
  intro i
  rw [Nat.testBit_and, testBit_add_high hi lo hlo, testBit_add_high hi _ hlof,
      Nat.testBit_and]
  by_cases h4 : i < 4
  · have hm : Nat.testBit 0xFFF0 i = false := by interval_cases i <;> decide
    have hm2 : Nat.testBit 0xF0 i = false := by interval_cases i <;> decide
    simp [h4, (by omega : i < 8), hm, hm2]
  · by_cases h8 : i < 8
    · have hm : Nat.testBit 0xFFF0 i = true := by interval_cases i <;> decide
      have hm2 : Nat.testBit 0xF0 i = true := by interval_cases i <;> decide
      simp [h8, hm, hm2]
    · by_cases h16 : i < 16
      · have hm : Nat.testBit 0xFFF0 i = true := by interval_cases i <;> decide
        simp [h8, hm]
      · have hm : Nat.testBit 0xFFF0 i = false := by
          apply Nat.testBit_lt_two_pow
          calc (0xFFF0 : Nat) < 2 ^ 16 := by norm_num
            _ ≤ 2 ^ i := Nat.pow_le_pow_right (by norm_num) (by omega)
        have hh : hi.testBit (i - 8) = false := by
          apply Nat.testBit_lt_two_pow
          calc hi < 256 := hhi
            _ = 2 ^ 8 := by norm_num
            _ ≤ 2 ^ (i - 8) := Nat.pow_le_pow_right (by norm_num) (by omega)
        simp [h8, hm, hh]

theorem or_ite_flag (b : Bool) (v k : Nat) :
    (if b then v ||| k else v) = v ||| (if b then k else 0) := by
  cases b <;> simp

theorem flag_nibble : ∀ lo < 256,
    ((((0 ||| (if (lo &&& 0x80) = 0x80 then 128 else 0)) |||
        (if (lo &&& 0x40) = 0x40 then 64 else 0)) |||
        (if (lo &&& 0x20) = 0x20 then 32 else 0)) |||
        (if (lo &&& 0x10) = 0x10 then 16 else 0)) = lo &&& 0xF0 := by
  decide

/-- `Cpu::pushAFValue` as the high byte `A` plus an OR-chain of flag bits. -/
theorem Cpu.pushAFValue_eq {σ : Type} (cpu : Cpu σ) :
    cpu.pushAFValue = 256 * cpu.a +
      ((((0 ||| (if cpu.zF then 128 else 0)) ||| (if cpu.nF then 64 else 0)) |||
        (if cpu.hF then 32 else 0)) ||| (if cpu.cF then 16 else 0)) := by
  have b1 : (if cpu.zF then (128 : Nat) else 0) < 256 := by split <;> norm_num
  have b2 : (if cpu.nF then (64 : Nat) else 0) < 256 := by split <;> norm_num
  have b3 : (if cpu.hF then (32 : Nat) else 0) < 256 := by split <;> norm_num
  have b4 : (if cpu.cF then (16 : Nat) else 0) < 256 := by split <;> norm_num
  have s0 : (0 : Nat) < 256 := by norm_num
  have s1 := or_lt_256 s0 b1
  have s2 := or_lt_256 s1 b2
  have s3 := or_lt_256 s2 b3
  unfold Cpu.pushAFValue
  rw [or_ite_flag, or_ite_flag, or_ite_flag, or_ite_flag]
  have h0 : cpu.a <<< 8 = 256 * cpu.a + 0 := by
    rw [Nat.shiftLeft_eq]
    ring
  rw [h0, high_or _ _ _ s0 b1, high_or _ _ _ s1 b2, high_or _ _ _ s2 b3,
      high_or _ _ _ s3 b4]

/-! ### Claim theorems -/

/-- C2, counterexample: in the state with `IF = 1` and `IE = 0`,
`pending()` returns `true` although `IF & IE = 0` (the source tests only
`IF != 0`), refuting "`pending()` returns true exactly when
`(IF & IE) != 0`". -/
theorem c2_counterexample :
    InterruptController.pending ⟨0, 1⟩ = true ∧ ((1 : Nat) &&& 0 = 0) := by
  decide

/-- C2, amended: for every 5-bit controller state, `pending()` returns true
exactly when `IF != 0` (IE does not participate), and `next()` returns the
lowest-set-bit source of `IF & IE`, or no source when `IF & IE = 0`
(`m &&& (32 - m)` is the lowest set bit of a 5-bit `m`). -/
theorem c2_amended : ∀ f < 32, ∀ e < 32,
    (InterruptController.pending ⟨e, f⟩ = true ↔ f ≠ 0) ∧
    InterruptController.next ⟨e, f⟩ =
      some (srcOfBit ((f &&& e) &&& (32 - (f &&& e)))) := by
  decide

/-- C2 witness: `IF = 5`, `IE = 4` — pending, and `next()` is TIMER. -/
theorem c2_amended_check :
    ((InterruptController.pending ⟨4, 5⟩ = true ↔ (5 : Nat) ≠ 0) ∧
      InterruptController.next ⟨4, 5⟩ =
        some (srcOfBit (((5 : Nat) &&& 4) &&& (32 - ((5 : Nat) &&& 4))))) :=
  c2_amended 5 (by norm_num) 4 (by norm_num)

/-- C6: from the start of a frame (OAM scan, `LY = 0`, 20 cycles budgeted),
whatever the values of LCDC and every other register, the PPU mode machine
returns to the frame start exactly 17 556 machine cycles later — at 17 555
cycles it is still one cycle short of wrapping `LY` from 153 to 0 — and each
of the 154 scanlines starts exactly 114 machine cycles after the previous
one. -/
theorem c6_frame_timing (p : PPU) (hm : p.mode = .OAMSCAN) (hl : p.ly = 0)
    (hr : p.rCyc = 20) :
    (PPU.runN 17556 p).proj = ⟨.OAMSCAN, 0, 20⟩ ∧
    (PPU.runN 17555 p).proj = ⟨.VBLANK, 153, 1⟩ ∧
    ∀ i < 154, (PPU.runN (114 * i) p).proj = lineStart i := by
  have hp : p.proj = lineStart 0 := by
    rw [PPU.proj, hm, hl, hr]
    rfl
  refine ⟨?_, ?_, ?_⟩
  · rw [PPU.proj_runN, hp, tstepN_frame]
    rfl
  · rw [PPU.proj_runN, hp, tstepN_17555]
  · intro i hi
    rw [PPU.proj_runN, hp, tstepN_line i hi]

/-- C6 witness: the frame timing at the power-on PPU state, sampled at the
full frame, the cycle before wrap, and the start of scanline 5. -/
theorem c6_frame_timing_check :
    (PPU.runN 17556 PPU.new).proj = ⟨.OAMSCAN, 0, 20⟩ ∧
    (PPU.runN 17555 PPU.new).proj = ⟨.VBLANK, 153, 1⟩ ∧
    (PPU.runN (114 * 5) PPU.new).proj = lineStart 5 :=
  ⟨(c6_frame_timing PPU.new rfl rfl rfl).1,
   (c6_frame_timing PPU.new rfl rfl rfl).2.1,
   (c6_frame_timing PPU.new rfl rfl rfl).2.2 5 (by norm_num)⟩

/-- C5, counterexample: with STAT bit 6 set and `LYC = 143`, the frame that
starts at the power-on timing state raises the VBLANK source zero times —
the LY = LYC check on entry to mode 1 returns the LCD source instead — so
"raises VBLANK exactly once regardless of the STAT enable bits and LYC" is
false. -/
theorem c5_counterexample :
    PPU.countVB 17556 { PPU.new with stat := 0x40, lyc := 143 } = 0 ∧ (0 : Nat) ≠ 1 := by
  constructor
  · rw [PPU.countVB_eq]
    norm_num
  · norm_num

/-- C5, amended: in every frame the PPU raises the VBLANK source exactly
once — when entering mode 1 — unless STAT bit 6 (the LYC interrupt enable)
is set and `LYC = 143`, in which case the LYC check preempts it with the
LCD source and VBLANK is raised zero times that frame. -/
theorem c5_vblank_once (p : PPU) (hm : p.mode = .OAMSCAN) (hl : p.ly = 0)
    (hr : p.rCyc = 20) :
    PPU.countVB 17556 p =
      if (p.stat &&& 0x40) ≠ 0 ∧ p.lyc = 143 then 0 else 1 := by
  have hp : p.proj = lineStart 0 := by
    rw [PPU.proj, hm, hl, hr]
    rfl
  rw [PPU.countVB_eq, hp]
  have h : lineStart 0 = ⟨.OAMSCAN, 0, 20⟩ := rfl
  rw [h, countHit_frame_one]

/-- C5 witness: at the power-on PPU state (STAT = 0, LYC = 0) the frame
raises VBLANK exactly once. -/
theorem c5_vblank_once_check : PPU.countVB 17556 PPU.new = 1 := by
  have h := c5_vblank_once PPU.new rfl rfl rfl
  simpa [PPU.new] using h

/-- The digit-level content of C7: for all BCD digit pairs, `ADD A, Imm8`
followed by `DAA` yields the packed-BCD encoding of the decimal sum mod
100, with the carry flag set exactly when the decimal sum reaches 100. -/
theorem daa_digits : ∀ ah < 10, ∀ al < 10, ∀ bh < 10, ∀ bl < 10,
    (Cpu.daa (Cpu.addAImm8 (mkCpuA (16 * ah + al)) (16 * bh + bl)).1).1.a =
      16 * ((10 * ah + al + (10 * bh + bl)) % 100 / 10) +
        (10 * ah + al + (10 * bh + bl)) % 100 % 10 ∧
    ((Cpu.daa (Cpu.addAImm8 (mkCpuA (16 * ah + al)) (16 * bh + bl)).1).1.cF = true ↔
      100 ≤ 10 * ah + al + (10 * bh + bl)) := by
  decide

/-- C7: for all valid packed-BCD bytes `a` and `i`, executing `ADD A,Imm8`
with operand `i` on a CPU whose accumulator holds `a`, followed by `DAA`,
leaves in A the packed-BCD encoding of `(dec a + dec i) mod 100` and sets
the carry flag exactly when `dec a + dec i ≥ 100`. -/
theorem c7_daa_bcd (a i : Nat) (ha : a < 256) (hi : i < 256)
    (hva : validPackedBCD a) (hvi : validPackedBCD i) :
    (Cpu.daa (Cpu.addAImm8 (mkCpuA a) i).1).1.a =
      16 * ((bcdToNat a + bcdToNat i) % 100 / 10) +
        (bcdToNat a + bcdToNat i) % 100 % 10 ∧
    ((Cpu.daa (Cpu.addAImm8 (mkCpuA a) i).1).1.cF = true ↔
      100 ≤ bcdToNat a + bcdToNat i) := by
  obtain ⟨ha1, ha2⟩ := hva
  obtain ⟨hi1, hi2⟩ := hvi
  rw [Nat.shiftRight_eq_div_pow] at ha1 hi1
  rw [show ((0xF : Nat) = 2 ^ 4 - 1) from rfl, Nat.and_pow_two_sub_one_eq_mod] at ha2 hi2
  have hda := daa_digits (a / 2 ^ 4) (by omega) (a % 2 ^ 4) (by omega)
    (i / 2 ^ 4) (by omega) (i % 2 ^ 4) (by omega)
  have hea : 16 * (a / 2 ^ 4) + a % 2 ^ 4 = a := by omega
  have hei : 16 * (i / 2 ^ 4) + i % 2 ^ 4 = i := by omega
  rw [hea, hei] at hda
  have hba : bcdToNat a = 10 * (a / 2 ^ 4) + a % 2 ^ 4 := by
    unfold bcdToNat
    rw [Nat.shiftRight_eq_div_pow,
        show ((0xF : Nat) = 2 ^ 4 - 1) from rfl, Nat.and_pow_two_sub_one_eq_mod]
  have hbi : bcdToNat i = 10 * (i / 2 ^ 4) + i % 2 ^ 4 := by
    unfold bcdToNat
    rw [Nat.shiftRight_eq_div_pow,
        show ((0xF : Nat) = 2 ^ 4 - 1) from rfl, Nat.and_pow_two_sub_one_eq_mod]
  rw [hba, hbi]
  exact hda

/-- C7 witness: `A = 0x99`, `imm = 0x99` — DAA yields `0x98` with carry
(decimal 99 + 99 = 198). -/
theorem c7_daa_bcd_check :
    (Cpu.daa (Cpu.addAImm8 (mkCpuA 0x99) 0x99).1).1.a =
      16 * ((bcdToNat 0x99 + bcdToNat 0x99) % 100 / 10) +
        (bcdToNat 0x99 + bcdToNat 0x99) % 100 % 10 ∧
    ((Cpu.daa (Cpu.addAImm8 (mkCpuA 0x99) 0x99).1).1.cF = true ↔
      100 ≤ bcdToNat 0x99 + bcdToNat 0x99) :=
  c7_daa_bcd 0x99 0x99 (by norm_num) (by norm_num) (by decide) (by decide)

/-- C10: `Cpu::new` over any `StaticBus` state produces the DMG post-boot
register file (`A=0x01 B=0x00 C=0x13 D=0x00 E=0xD8 H=0x01 L=0x4D`,
`SP=0xFFFE`, `PC=0x0100`, flags `Z=1 N=0 H=1 C=1`, IME and HALT clear); its
single bus write of `0x90` to `0xFF44` is discarded by the PPU (LY is
read-only), so LY is unchanged and still reads 0 when it was 0. -/
theorem c10_post_boot (b : StaticBus) :
    (Cpu.new b).map (fun c => (c.a, c.b, c.c, c.d, c.e, c.h, c.l)) =
      some (0x01, 0x00, 0x13, 0x00, 0xD8, 0x01, 0x4D) ∧
    (Cpu.new b).map (fun c => (c.sp, c.pc)) = some (0xFFFE, 0x0100) ∧
    (Cpu.new b).map (fun c => (c.zF, c.nF, c.hF, c.cF, c.ime, c.sleep)) =
      some (true, false, true, true, false, false) ∧
    (Cpu.new b).map (fun c => c.bus.ppu.ly) = some b.ppu.ly ∧
    (b.ppu.ly = 0 → (Cpu.new b).bind (fun c => c.bus.read 0xFF44) = some 0) := by
  have hw : StaticBus.write b 0xFF44 0x90 =
      some { b with ppu := b.ppu } := by
    unfold StaticBus.write PPU.write
    norm_num
  refine ⟨?_, ?_, ?_, ?_, ?_⟩ <;>
    simp [Cpu.new, hw, StaticBus.read, PPU.read]

/-- C10 witness: at the zeroed power-on bus, `Cpu::new` leaves LY at 0 and
reading `0xFF44` yields 0. -/
theorem c10_post_boot_check :
    (Cpu.new sbZero).map (fun c => c.bus.ppu.ly) = some sbZero.ppu.ly ∧
    (Cpu.new sbZero).bind (fun c => c.bus.read 0xFF44) = some 0 :=
  ⟨(c10_post_boot sbZero).2.2.2.1, (c10_post_boot sbZero).2.2.2.2 rfl⟩

theorem recompose16 (x : Nat) :
    (x >>> 8) <<< 8 ||| (x &&& 0xFF) = 256 * (x / 256) + x % 256 := by
  have hm : x &&& 0xFF = x % 256 := by
    have h2 := Nat.and_pow_two_sub_one_eq_mod x 8
    norm_num at h2
    exact h2
  have hd : x >>> 8 = x / 256 := by
    rw [Nat.shiftRight_eq_div_pow]
  rw [hm]
  rw [hd]
  exact split16 _ _ (by omega)

/-- C8: for any CPU state over a plain byte-memory bus with `SP` a valid
16-bit value, `POP AF` followed by `PUSH AF` restores SP and stores back a
16-bit word equal to the originally popped word ANDed with `0xFFF0`; the
four flags are loaded from bits 7..4 of the popped word's low byte, and the
low 4 bits of the stored word are zero. -/
theorem c8_pop_push_af (cpu : Cpu (Nat → Nat)) (hsp : cpu.sp < 65536) :
    (((Cpu.popAF fnBusOps cpu).bind fun r => Cpu.pushAF fnBusOps r.1).map
        (fun r => (r.1.sp, (r.1.bus ((cpu.sp + 1) % 65536) <<< 8) ||| r.1.bus cpu.sp)) =
      some (cpu.sp,
        ((cpu.bus cpu.sp &&& 0xFF) |||
          ((cpu.bus ((cpu.sp + 1) % 65536) &&& 0xFF) <<< 8)) &&& 0xFFF0)) ∧
    ((Cpu.popAF fnBusOps cpu).map (fun r => (r.1.zF, r.1.nF, r.1.hF, r.1.cF)) =
      some
        (decide ((((cpu.bus cpu.sp &&& 0xFF) |||
            ((cpu.bus ((cpu.sp + 1) % 65536) &&& 0xFF) <<< 8)) &&& 0x80) = 0x80),
         decide ((((cpu.bus cpu.sp &&& 0xFF) |||
            ((cpu.bus ((cpu.sp + 1) % 65536) &&& 0xFF) <<< 8)) &&& 0x40) = 0x40),
         decide ((((cpu.bus cpu.sp &&& 0xFF) |||
            ((cpu.bus ((cpu.sp + 1) % 65536) &&& 0xFF) <<< 8)) &&& 0x20) = 0x20),
         decide ((((cpu.bus cpu.sp &&& 0xFF) |||
            ((cpu.bus ((cpu.sp + 1) % 65536) &&& 0xFF) <<< 8)) &&& 0x10) = 0x10))) ∧
    (((((cpu.bus cpu.sp &&& 0xFF) |||
        ((cpu.bus ((cpu.sp + 1) % 65536) &&& 0xFF) <<< 8)) &&& 0xFFF0) &&& 0xF) = 0) := by
  have hlo : cpu.bus cpu.sp &&& 0xFF < 256 :=
    lt_of_le_of_lt Nat.and_le_right (by norm_num)
  have hhi : cpu.bus ((cpu.sp + 1) % 65536) &&& 0xFF < 256 :=
    lt_of_le_of_lt Nat.and_le_right (by norm_num)
  have e1 : (((cpu.sp + 1) % 65536 + 1) % 65536 + 65535) % 65536 = (cpu.sp + 1) % 65536 := by
    omega
  have e2 : ((cpu.sp + 1) % 65536 + 65535) % 65536 = cpu.sp := by omega
  have hne : (cpu.sp + 1) % 65536 ≠ cpu.sp := by omega
  have hw : (cpu.bus cpu.sp &&& 0xFF) ||| ((cpu.bus ((cpu.sp + 1) % 65536) &&& 0xFF) <<< 8) =
      256 * (cpu.bus ((cpu.sp + 1) % 65536) &&& 0xFF) + (cpu.bus cpu.sp &&& 0xFF) := by
    rw [Nat.lor_comm, split16 _ _ hlo]
  refine ⟨?_, ?_, ?_⟩
  · simp only [Cpu.popAF, Cpu.popStack, Cpu.pushAF, Cpu.pushStack, fnBusOps,
      Option.bind_eq_bind, Option.some_bind, Option.map_some, e1, e2]
    simp only [Option.map_some, hne, if_false, if_true, hw]
    simp only [Cpu.pushAFValue_eq]
    simp only [low_and _ _ 128 hlo (by norm_num), low_and _ _ 64 hlo (by norm_num),
      low_and _ _ 32 hlo (by norm_num), low_and _ _ 16 hlo (by norm_num),
      shift_high _ _ hlo, and_FF _ hhi, decide_eq_true_eq]
    have hnibLt : (cpu.bus cpu.sp &&& 0xFF) &&& 0xF0 < 256 :=
      lt_of_le_of_lt Nat.and_le_right (by norm_num)
    rw [flag_nibble _ hlo]
    simp only [shift_high _ _ hnibLt, low_and _ _ 255 hnibLt (by norm_num),
      and_FF _ hnibLt, split16 _ _ hnibLt, and_FFF0 _ _ hhi hlo]
    simp only [Option.map_some']
    simp [hne]
    rw [and_FF _ hhi]
    exact split16 _ _ hnibLt
  · simp only [Cpu.popAF, Cpu.popStack, fnBusOps, Option.bind_eq_bind,
      Option.some_bind, Option.map_some']
  · rw [Nat.and_assoc]
    have h0 : (0xFFF0 : Nat) &&& 0xF = 0 := by decide
    rw [h0, Nat.and_zero]

/-- C8 witness: the popped/pushed word relation at the concrete stack word
`0x12AB`. -/
theorem c8_pop_push_af_check :
    ((Cpu.popAF fnBusOps cpuFn0).bind fun r => Cpu.pushAF fnBusOps r.1).map
        (fun r => (r.1.sp, (r.1.bus ((cpuFn0.sp + 1) % 65536) <<< 8) ||| r.1.bus cpuFn0.sp)) =
      some (cpuFn0.sp,
        ((cpuFn0.bus cpuFn0.sp &&& 0xFF) |||
          ((cpuFn0.bus ((cpuFn0.sp + 1) % 65536) &&& 0xFF) <<< 8)) &&& 0xFFF0) :=
  (c8_pop_push_af cpuFn0 (by decide)).1

/-- C9, counterexample: with `HL = 0xC000`, `A = 5` and zeroed memory,
`LD (HL+),A` followed by `LD A,(HL-)` leaves `A = 0` — the second
instruction reads address `HL + 1`, not the address that was written — so
"the byte loaded back into A equals the byte that was written" is false. -/
theorem c9_counterexample :
    ((Cpu.ldR16MemA fnBusOps cpuHL 2).bind fun r => Cpu.ldAR16Mem fnBusOps r.1 3).map
        (fun r => r.1.a) = some 0 ∧
    ¬ (((Cpu.ldR16MemA fnBusOps cpuHL 2).bind fun r => Cpu.ldAR16Mem fnBusOps r.1 3).map
        (fun r => r.1.a) = some cpuHL.a) := by
  refine ⟨by decide, by decide⟩

/-- C9, amended: for every CPU state over a plain byte memory (including
`HL = 0xFFFF`, with wrapping 16-bit HL arithmetic), `LD (HL+),A` followed
by `LD A,(HL-)` restores HL to its original value and stores A at the
original HL; the byte loaded back into A, however, is the *pre-existing*
memory byte at `HL + 1 (mod 2^16)`, not the byte that was written. -/
theorem c9_hl_roundtrip (cpu : Cpu (Nat → Nat)) (hh : cpu.h < 256) (hl : cpu.l < 256) :
    ((Cpu.ldR16MemA fnBusOps cpu 2).bind fun r => Cpu.ldAR16Mem fnBusOps r.1 3).map
        (fun r => (r.1.h, r.1.l, r.1.a, r.1.bus ((cpu.h <<< 8) ||| cpu.l))) =
      some (cpu.h, cpu.l,
        cpu.bus ((((cpu.h <<< 8) ||| cpu.l) + 1) % 65536) &&& 0xFF, cpu.a) := by
  have hhl : (cpu.h <<< 8) ||| cpu.l = 256 * cpu.h + cpu.l := split16 _ _ hl
  simp only [Cpu.ldR16MemA, Cpu.ldAR16Mem, Cpu.wr16mem, Cpu.rr16mem, fnBusOps,
    Option.bind_eq_bind, Option.some_bind, Option.map_some', hhl]
  norm_num
  have hrec := recompose16 ((256 * cpu.h + cpu.l + 1) % 65536)
  have hX : (((256 * cpu.h + cpu.l + 1) % 65536) >>> 8) <<< 8 |||
      ((256 * cpu.h + cpu.l + 1) % 65536 &&& 255) = (256 * cpu.h + cpu.l + 1) % 65536 := by
    norm_num at hrec
    rw [hrec]
    omega
  rw [hX]
  have hback : ((256 * cpu.h + cpu.l + 1) % 65536 + 65535) % 65536 = 256 * cpu.h + cpu.l := by
    omega
  rw [hback]
  have hsr : (256 * cpu.h + cpu.l) >>> 8 = cpu.h := shift_high _ _ hl
  have hand : (256 * cpu.h + cpu.l) &&& 255 = cpu.l := by
    rw [low_and _ _ _ hl (by norm_num), and_FF _ hl]
  refine ⟨hsr, hand, ?_⟩
  rw [if_neg (by omega : ¬ (256 * cpu.h + cpu.l + 1) % 65536 = 256 * cpu.h + cpu.l)]

/-- C9 witness: the amended round-trip at the concrete state `cpuHL`. -/
theorem c9_hl_roundtrip_check :
    ((Cpu.ldR16MemA fnBusOps cpuHL 2).bind fun r => Cpu.ldAR16Mem fnBusOps r.1 3).map
        (fun r => (r.1.h, r.1.l, r.1.a, r.1.bus ((cpuHL.h <<< 8) ||| cpuHL.l))) =
      some (cpuHL.h, cpuHL.l,
        cpuHL.bus ((((cpuHL.h <<< 8) ||| cpuHL.l) + 1) % 65536) &&& 0xFF, cpuHL.a) :=
  c9_hl_roundtrip cpuHL (by decide) (by decide)

theorem PPU.ppuRead_isSome (p : PPU) (addr : Nat)
    (h : (0x8000 ≤ addr ∧ addr ≤ 0x9FFF) ∨ (0xFE00 ≤ addr ∧ addr ≤ 0xFE9F) ∨
      (0xFF40 ≤ addr ∧ addr ≤ 0xFF4B)) :
    (p.read addr).isSome = true := by
  rcases h with ⟨h1, h2⟩ | ⟨h1, h2⟩ | ⟨h1, h2⟩
  · unfold PPU.read
    rw [if_pos (by omega)]
    exact Option.isSome_some
  · unfold PPU.read
    rw [if_neg (by omega), if_pos (by omega)]
    exact Option.isSome_some
  · interval_cases addr <;> rfl

theorem PPU.ppuWrite_isSome (p : PPU) (addr val : Nat)
    (h : (0x8000 ≤ addr ∧ addr ≤ 0x9FFF) ∨ (0xFE00 ≤ addr ∧ addr ≤ 0xFE9F) ∨
      (0xFF40 ≤ addr ∧ addr ≤ 0xFF4B))
    (hd : addr ≠ 0xFF46) :
    (p.write addr val).isSome = true := by
  rcases h with ⟨h1, h2⟩ | ⟨h1, h2⟩ | ⟨h1, h2⟩
  · unfold PPU.write
    rw [if_pos (by omega)]
    exact Option.isSome_some
  · unfold PPU.write
    rw [if_neg (by omega), if_pos (by omega)]
    exact Option.isSome_some
  · interval_cases addr <;> first | rfl | (exact absurd rfl hd)

theorem Timer.timerRead_isSome (t : Timer) (addr : Nat)
    (h : 0xFF04 ≤ addr ∧ addr ≤ 0xFF07) : (t.read addr).isSome = true := by
  obtain ⟨h1, h2⟩ := h
  interval_cases addr <;> rfl

theorem Timer.timerWrite_isSome (t : Timer) (addr val : Nat)
    (h : 0xFF04 ≤ addr ∧ addr ≤ 0xFF07) : (t.write addr val).isSome = true := by
  obtain ⟨h1, h2⟩ := h
  interval_cases addr <;> rfl

theorem InterruptController.icRead_isSome (ic : InterruptController) (addr : Nat)
    (h : addr = 0xFF0F ∨ addr = 0xFFFF) : (ic.read addr).isSome = true := by
  rcases h with rfl | rfl <;> rfl

theorem InterruptController.icWrite_isSome (ic : InterruptController) (addr val : Nat)
    (h : addr = 0xFF0F ∨ addr = 0xFFFF) : (ic.write addr val).isSome = true := by
  rcases h with rfl | rfl <;> rfl
theorem StaticBus.busRead_isSome (b : StaticBus) (addr : Nat) (ha : addr < 0x10000) :
    (b.read addr).isSome = true := by
  unfold StaticBus.read
  by_cases h0 : addr ≤ 0x3FFF
  · rw [if_pos h0]
    exact Option.isSome_some
  rw [if_neg h0]
  by_cases h1 : addr ≤ 0x7FFF
  · rw [if_pos h1]
    exact Option.isSome_some
  rw [if_neg h1]
  by_cases h2 : addr ≤ 0x9FFF
  · rw [if_pos h2]
    apply PPU.ppuRead_isSome
    omega
  rw [if_neg h2]
  by_cases h3 : addr ≤ 0xBFFF
  · rw [if_pos h3]
    exact Option.isSome_some
  rw [if_neg h3]
  by_cases h4 : addr ≤ 0xCFFF
  · rw [if_pos h4]
    exact Option.isSome_some
  rw [if_neg h4]
  by_cases h5 : addr ≤ 0xDFFF
  · rw [if_pos h5]
    exact Option.isSome_some
  rw [if_neg h5]
  by_cases h6 : addr ≤ 0xFDFF
  · rw [if_pos h6]
    exact Option.isSome_some
  rw [if_neg h6]
  by_cases h7 : addr ≤ 0xFE9F
  · rw [if_pos h7]
    apply PPU.ppuRead_isSome
    omega
  rw [if_neg h7]
  by_cases h8 : addr ≤ 0xFEFF
  · rw [if_pos h8]
    exact Option.isSome_some
  rw [if_neg h8]
  by_cases h9 : addr = 0xFF00
  · rw [if_pos h9]
    exact Option.isSome_some
  rw [if_neg h9]
  by_cases h10 : addr ≤ 0xFF03
  · rw [if_pos h10]
    exact Option.isSome_some
  rw [if_neg h10]
  by_cases h11 : addr ≤ 0xFF07
  · rw [if_pos h11]
    apply Timer.timerRead_isSome
    omega
  rw [if_neg h11]
  by_cases h12 : addr ≤ 0xFF0E
  · rw [if_pos h12]
    exact Option.isSome_some
  rw [if_neg h12]
  by_cases h13 : addr = 0xFF0F
  · rw [if_pos h13]
    apply InterruptController.icRead_isSome
    omega
  rw [if_neg h13]
  by_cases h14 : addr ≤ 0xFF3F
  · rw [if_pos h14]
    exact Option.isSome_some
  rw [if_neg h14]
  by_cases h15 : addr ≤ 0xFF4B
  · rw [if_pos h15]
    apply PPU.ppuRead_isSome
    omega
  rw [if_neg h15]
  by_cases h16 : addr ≤ 0xFF7F
  · rw [if_pos h16]
    exact Option.isSome_some
  rw [if_neg h16]
  by_cases h17 : addr ≤ 0xFFFE
  · rw [if_pos h17]
    exact Option.isSome_some
  rw [if_neg h17]
  by_cases h18 : addr = 0xFFFF
  · rw [if_pos h18]
    apply InterruptController.icRead_isSome
    omega
  rw [if_neg h18]
  exact absurd ha (by omega)
theorem StaticBus.dmaGo_isSome (srcBase : Nat) (hsrc : srcBase + 0xA0 ≤ 0x10000) :
    ∀ fuel i b, i + fuel ≤ 0xA0 → (StaticBus.dmaGo srcBase i fuel b).isSome = true := by
  intro fuel
  induction fuel with
  | zero => intro i b _; rfl
  | succ n ih =>
    intro i b h
    unfold StaticBus.dmaGo
    obtain ⟨v, hv⟩ := Option.isSome_iff_exists.mp
      (StaticBus.busRead_isSome b (srcBase + i) (by omega))
    obtain ⟨p, hp⟩ := Option.isSome_iff_exists.mp
      (PPU.ppuWrite_isSome b.ppu (0xFE00 + i) v (by omega) (by omega))
    rw [hv]
    simp only [Option.bind_eq_bind, Option.some_bind]
    rw [hp]
    simp only [Option.bind_eq_bind, Option.some_bind]
    exact ih (i + 1) _ (by omega)

theorem StaticBus.busWrite_isSome (b : StaticBus) (addr val : Nat) (ha : addr < 0x10000)
    (hv : val < 256) (hecho : ¬(0xE000 ≤ addr ∧ addr ≤ 0xFDFF)) :
    (b.write addr val).isSome = true := by
  unfold StaticBus.write
  by_cases h0 : addr ≤ 0x3FFF
  · rw [if_pos h0]
    exact Option.isSome_some
  rw [if_neg h0]
  by_cases h1 : addr ≤ 0x7FFF
  · rw [if_pos h1]
    exact Option.isSome_some
  rw [if_neg h1]
  by_cases h2 : addr ≤ 0x9FFF
  · rw [if_pos h2]
    rw [Option.isSome_map']
    apply PPU.ppuWrite_isSome
    · omega
    · omega
  rw [if_neg h2]
  by_cases h3 : addr ≤ 0xBFFF
  · rw [if_pos h3]
    exact Option.isSome_some
  rw [if_neg h3]
  by_cases h4 : addr ≤ 0xCFFF
  · rw [if_pos h4]
    exact Option.isSome_some
  rw [if_neg h4]
  by_cases h5 : addr ≤ 0xDFFF
  · rw [if_pos h5]
    exact Option.isSome_some
  rw [if_neg h5]
  by_cases h6 : addr ≤ 0xFDFF
  · rw [if_pos h6]
    exact absurd (⟨by omega, by omega⟩ : 0xE000 ≤ addr ∧ addr ≤ 0xFDFF) hecho
  rw [if_neg h6]
  by_cases h7 : addr ≤ 0xFE9F
  · rw [if_pos h7]
    rw [Option.isSome_map']
    apply PPU.ppuWrite_isSome
    · omega
    · omega
  rw [if_neg h7]
  by_cases h8 : addr ≤ 0xFEFF
  · rw [if_pos h8]
    exact Option.isSome_some
  rw [if_neg h8]
  by_cases h9 : addr ≤ 0xFF03
  · rw [if_pos h9]
    split
    · exact Option.isSome_some
    · exact Option.isSome_some
  rw [if_neg h9]
  by_cases h10 : addr ≤ 0xFF07
  · rw [if_pos h10]
    rw [Option.isSome_map']
    apply Timer.timerWrite_isSome
    omega
  rw [if_neg h10]
  by_cases h11 : addr ≤ 0xFF0E
  · rw [if_pos h11]
    exact Option.isSome_some
  rw [if_neg h11]
  by_cases h12 : addr = 0xFF0F
  · rw [if_pos h12]
    rw [Option.isSome_map']
    apply InterruptController.icWrite_isSome
    omega
  rw [if_neg h12]
  by_cases h13 : addr ≤ 0xFF3F
  · rw [if_pos h13]
    exact Option.isSome_some
  rw [if_neg h13]
  by_cases h14 : addr ≤ 0xFF4B
  · rw [if_pos h14]
    by_cases h46 : addr = 0xFF46
    · rw [if_pos h46]
      exact StaticBus.dmaGo_isSome (val * 0x100) (by omega) 0xA0 0 b (by omega)
    · rw [if_neg h46]
      rw [Option.isSome_map']
      apply PPU.ppuWrite_isSome
      · omega
      · omega
  rw [if_neg h14]
  by_cases h15 : addr ≤ 0xFF7F
  · rw [if_pos h15]
    exact Option.isSome_some
  rw [if_neg h15]
  by_cases h16 : addr ≤ 0xFFFE
  · rw [if_pos h16]
    exact Option.isSome_some
  rw [if_neg h16]
  by_cases h17 : addr = 0xFFFF
  · rw [if_pos h17]
    rw [Option.isSome_map']
    apply InterruptController.icWrite_isSome
    omega
  rw [if_neg h17]
  exact absurd ha (by omega)
theorem getCartHeader_simple (c : CartData) (k : Nat)
    (hcode : c.rom 0x148 = k) (hram : c.rom 0x149 = 0)
    (htitle : c.rom 0x134 = 0) (hmfr : c.rom 0x13F = 0)
    (hlen : c.romLen = 32768 * 2 ^ k) :
    getCartHeader c = some
      { title := [], manufacturerCode := [], licenseeCode := []
        isSgb := c.rom 0x146 ≠ 0x03, cartType := c.rom 0x147
        romSize := 32768 * 2 ^ k, ramSize := 0, numRomBanks := 2 ^ (k + 1) } := by
  have h2k : 1 ≤ 2 ^ k := Nat.one_le_two_pow
  have htb : ((List.range 16).map fun j => c.rom (0x134 + j)).takeWhile (· ≠ 0) = [] := by
    have h16 : List.range 16 = [0, 1, 2, 3, 4, 5, 6, 7, 8, 9, 10, 11, 12, 13, 14, 15] := by
      rfl
    rw [h16]
    simp [List.takeWhile_cons, htitle]
  have hmb : ((List.range 5).map fun j => c.rom (0x13F + j)).takeWhile (· ≠ 0) = [] := by
    have h5 : List.range 5 = [0, 1, 2, 3, 4] := by rfl
    rw [h5]
    simp [List.takeWhile_cons, hmfr]
  unfold getCartHeader
  rw [if_neg (by omega)]
  rw [htb, hmb]
  rw [if_neg (by decide)]
  rw [if_neg (by decide)]
  rw [hram, hcode]
  rw [if_pos rfl]
  have hdiv : 32768 * 2 ^ k / 16384 = 2 ^ (k + 1) := by
    rw [pow_succ]
    omega
  simp [hdiv]
theorem mbc1WrapGt_21 (romSize addr : Nat) (h : addr ≤ romSize) :
    mbc1WrapGt romSize addr 21 = some addr := by
  show mbc1WrapGt romSize addr (20 + 1) = some addr
  unfold mbc1WrapGt
  rw [if_neg (by omega)]

theorem mbc1_write_bank (c : CartData) (k N : Nat)
    (hcode : c.rom 0x148 = k) (hram : c.rom 0x149 = 0)
    (htitle : c.rom 0x134 = 0) (hmfr : c.rom 0x13F = 0)
    (hlen : c.romLen = 32768 * 2 ^ k) :
    MBC1.write MBC1.new c 0x2000 N = some
      ({ ramEn := false
         romBankNum := (if N &&& 0x1F = 0 then 1 else N &&& 0x1F) &&& (2 ^ (k + 1) - 1)
         secondaryBankReg := 0, advBankMode := false }, c) := by
  unfold MBC1.write
  rw [if_neg (by norm_num), if_pos (by norm_num)]
  rw [getCartHeader_simple c k hcode hram htitle hmfr hlen]
  simp only [Option.bind_eq_bind, Option.some_bind]
  have hmask : 1 <<< Nat.log2 (2 ^ (k + 1)) - 1 = 2 ^ (k + 1) - 1 := by
    rw [Nat.log2_two_pow, Nat.shiftLeft_eq, one_mul]
  simp [MBC1.new, hmask]
  rw [Nat.shiftLeft_eq, one_mul, Nat.and_pow_two_sub_one_eq_mod]

theorem mbc1_read_bank (c : CartData) (k : Nat) (m : MBC1)
    (hcode : c.rom 0x148 = k) (hram : c.rom 0x149 = 0)
    (htitle : c.rom 0x134 = 0) (hmfr : c.rom 0x13F = 0)
    (hlen : c.romLen = 32768 * 2 ^ k)
    (hsec : m.secondaryBankReg = 0)
    (hbank : m.romBankNum ≤ 2 ^ (k + 1) - 1)
    (hbank31 : m.romBankNum < 32) :
    MBC1.read m c 0x4000 = some (c.rom (m.romBankNum * 16384)) := by
  have hpow : 2 ^ (k + 1) = 2 * 2 ^ k := by rw [pow_succ]; ring
  unfold MBC1.read
  rw [if_neg (by norm_num), if_pos (by norm_num)]
  rw [getCartHeader_simple c k hcode hram htitle hmfr hlen]
  simp only [Option.bind_eq_bind, Option.some_bind]
  rw [if_neg (by omega)]
  have ha : (0x4000 - 0x4000 : Nat) ||| (m.romBankNum <<< 14) = m.romBankNum * 16384 := by
    simp [Nat.shiftLeft_eq]
  rw [ha, hsec]
  have hz : m.romBankNum * 16384 ||| 0 <<< 19 = m.romBankNum * 16384 := by
    simp
  rw [hz]
  have hone : 1 ≤ 2 ^ k := Nat.one_le_two_pow
  have haddr : m.romBankNum * 16384 + 16384 ≤ 32768 * 2 ^ k := by
    have h1 : m.romBankNum * 16384 ≤ (2 ^ (k + 1) - 1) * 16384 :=
      Nat.mul_le_mul_right _ hbank
    rw [hpow] at h1
    omega
  rw [mbc1WrapGt_21 _ _ (by omega)]
  simp only [Option.some_bind]
  rw [if_pos (by omega)]


/-- C1, counterexample: a write to the echo region (address `0xE000`) hits
the `unreachable!` arm of `StaticBus::write` and panics, refuting "no
operation panics ... writes to those regions are dropped". -/
theorem c1_counterexample : StaticBus.write sbZero 0xE000 0 = none := rfl

/-- C1, amended: for every bus state, every valid 16-bit address and every
byte: reads never panic; reads from the echo region `0xE000`–`0xFDFF` and
the prohibited region `0xFEA0`–`0xFEFF` return 0; writes to the prohibited
region are dropped with no state change; writes anywhere *outside* the echo
region never panic — but a write inside the echo region panics
(`unreachable!`). -/
theorem c1_bus_safety (b : StaticBus) (addr val : Nat) (ha : addr < 0x10000)
    (hv : val < 256) :
    ((b.read addr).isSome = true) ∧
    (0xE000 ≤ addr → addr ≤ 0xFDFF → b.read addr = some 0 ∧ b.write addr val = none) ∧
    (0xFEA0 ≤ addr → addr ≤ 0xFEFF → b.read addr = some 0 ∧ b.write addr val = some b) ∧
    (addr < 0xE000 ∨ 0xFDFF < addr → (b.write addr val).isSome = true) := by
  refine ⟨StaticBus.busRead_isSome b addr ha, ?_, ?_, ?_⟩
  · intro h1 h2
    have n1 : ¬ addr ≤ 0x3FFF := by omega
    have n2 : ¬ addr ≤ 0x7FFF := by omega
    have n3 : ¬ addr ≤ 0x9FFF := by omega
    have n4 : ¬ addr ≤ 0xBFFF := by omega
    have n5 : ¬ addr ≤ 0xCFFF := by omega
    have n6 : ¬ addr ≤ 0xDFFF := by omega
    have p7 : addr ≤ 0xFDFF := h2
    constructor
    · unfold StaticBus.read
      rw [if_neg n1, if_neg n2, if_neg n3, if_neg n4, if_neg n5, if_neg n6, if_pos p7]
    · unfold StaticBus.write
      rw [if_neg n1, if_neg n2, if_neg n3, if_neg n4, if_neg n5, if_neg n6, if_pos p7]
  · intro h1 h2
    have m1 : ¬ addr ≤ 0x3FFF := by omega
    have m2 : ¬ addr ≤ 0x7FFF := by omega
    have m3 : ¬ addr ≤ 0x9FFF := by omega
    have m4 : ¬ addr ≤ 0xBFFF := by omega
    have m5 : ¬ addr ≤ 0xCFFF := by omega
    have m6 : ¬ addr ≤ 0xDFFF := by omega
    have m7 : ¬ addr ≤ 0xFDFF := by omega
    have m8 : ¬ addr ≤ 0xFE9F := by omega
    have p9 : addr ≤ 0xFEFF := h2
    constructor
    · unfold StaticBus.read
      rw [if_neg m1, if_neg m2, if_neg m3, if_neg m4, if_neg m5, if_neg m6, if_neg m7,
          if_neg m8, if_pos p9]
    · unfold StaticBus.write
      rw [if_neg m1, if_neg m2, if_neg m3, if_neg m4, if_neg m5, if_neg m6, if_neg m7,
          if_neg m8, if_pos p9]
  · intro h
    exact StaticBus.busWrite_isSome b addr val ha hv (by omega)

/-- C1 witness: at the zeroed bus and prohibited address `0xFEA0`. -/
theorem c1_bus_safety_check :
    (StaticBus.read sbZero 0xFEA0 = some 0 ∧ StaticBus.write sbZero 0xFEA0 0 = some sbZero) ∧
    (StaticBus.read sbZero 0xFEA0).isSome = true :=
  ⟨(c1_bus_safety sbZero 0xFEA0 0 (by norm_num) (by norm_num)).2.2.1 (by norm_num) (by norm_num),
   (c1_bus_safety sbZero 0xFEA0 0 (by norm_num) (by norm_num)).1⟩

/-- C3, counterexample: halted with IME = 0 and an enabled pending VBLANK
interrupt (`IF & IE = 1`), `Cpu::run_one` *does* vector: PC becomes `0x40`
(not the original `0x1234`), SP drops by two, and 5 cycles are consumed —
refuting "wakes the CPU but does not vector ... SP ... and PC are
unchanged". -/
theorem c3_counterexample :
    cpuC3.ime = false ∧ cpuC3.sleep = true ∧
    (cpuC3.bus.intController.intF &&& cpuC3.bus.intController.intEn) ≠ 0 ∧
    (Cpu.runOne staticBusOps cpuC3).map (fun r => (r.1.pc, r.1.sp, r.2)) =
      some (0x40, 0xC0FE, 5) ∧ cpuC3.pc = 0x1234 :=
  ⟨rfl, rfl, by decide, by decide, rfl⟩

/-- C3, amended: whenever the CPU is halted and an enabled interrupt is
pending (`IF & IE ≠ 0`), `Cpu::run_one` wakes the CPU *and vectors
regardless of IME*.  Its result is exactly the dispatch sequence: push the
old PC onto the stack (high byte written at SP−1, low byte at SP−2, with
wrapping 16-bit SP arithmetic; the panics of `StaticBus::write` — e.g. a
push into the echo region — propagate), clear the pending source's IF
bit, run the rest of the system for 5 machine cycles (a `render_line`
panic inside `PPU::run` propagates), and return the CPU woken
(`sleep = false`) with IME cleared, PC at the interrupt vector, SP
decremented by two, and 5 cycles consumed.  In particular, whenever
`run_one` returns, those register values hold: the stack memory, SP, IME
and the IF bit are *not* left unchanged, and execution does not continue
at the old PC. -/
theorem c3_halt_wake (cpu : Cpu StaticBus) (i : IntSource)
    (hs : cpu.sleep = true)
    (hq : cpu.bus.intController.next = some (some i)) :
    (Cpu.runOne staticBusOps cpu =
      (StaticBus.write cpu.bus ((cpu.sp + 65535) % 65536) ((cpu.pc >>> 8) &&& 0xFF)).bind
        (fun b1 => (StaticBus.write b1 (((cpu.sp + 65535) % 65536 + 65535) % 65536)
            (cpu.pc &&& 0xFF)).bind
          (fun b2 => (StaticBus.runCycles (StaticBus.clearInterrupt b2 i) 5).map
            (fun b3 =>
              ({ cpu with
                  sleep := false, ime := false, pc := i.vector,
                  sp := ((cpu.sp + 65535) % 65536 + 65535) % 65536, bus := b3 }, 5))))) ∧
    ∀ r, Cpu.runOne staticBusOps cpu = some r →
      (r.1.sleep, r.1.ime, r.1.pc, r.1.sp, r.2) =
        (false, false, i.vector, ((cpu.sp + 65535) % 65536 + 65535) % 65536, 5) := by
  have heq : Cpu.runOne staticBusOps cpu =
      (StaticBus.write cpu.bus ((cpu.sp + 65535) % 65536) ((cpu.pc >>> 8) &&& 0xFF)).bind
        (fun b1 => (StaticBus.write b1 (((cpu.sp + 65535) % 65536 + 65535) % 65536)
            (cpu.pc &&& 0xFF)).bind
          (fun b2 => (StaticBus.runCycles (StaticBus.clearInterrupt b2 i) 5).map
            (fun b3 =>
              ({ cpu with
                  sleep := false, ime := false, pc := i.vector,
                  sp := ((cpu.sp + 65535) % 65536 + 65535) % 65536, bus := b3 }, 5)))) := by
    cases hw1 : StaticBus.write cpu.bus ((cpu.sp + 65535) % 65536) ((cpu.pc >>> 8) &&& 0xFF) with
    | none =>
      simp only [Cpu.runOne, hs, if_true, staticBusOps, StaticBus.queryInterrupt, hq,
        Cpu.handleInterrupt, Cpu.pushStack, hw1, Option.bind_eq_bind, Option.none_bind]
    | some b1 =>
      cases hw2 : StaticBus.write b1 (((cpu.sp + 65535) % 65536 + 65535) % 65536)
          (cpu.pc &&& 0xFF) with
      | none =>
        simp only [Cpu.runOne, hs, if_true, staticBusOps, StaticBus.queryInterrupt, hq,
          Cpu.handleInterrupt, Cpu.pushStack, hw1, hw2, Option.bind_eq_bind,
          Option.some_bind, Option.none_bind]
      | some b2 =>
        cases hr : StaticBus.runCycles (StaticBus.clearInterrupt b2 i) 5 with
        | none =>
          simp only [Cpu.runOne, hs, if_true, staticBusOps, StaticBus.queryInterrupt, hq,
            Cpu.handleInterrupt, Cpu.pushStack, hw1, hw2, Option.bind_eq_bind,
            Option.some_bind, hr, Option.map_none', Option.none_bind]
        | some b3 =>
          simp only [Cpu.runOne, hs, if_true, staticBusOps, StaticBus.queryInterrupt, hq,
            Cpu.handleInterrupt, Cpu.pushStack, hw1, hw2, Option.bind_eq_bind,
            Option.some_bind, hr, Option.map_some']
  refine ⟨heq, fun r hr => ?_⟩
  rw [heq] at hr
  obtain ⟨b1, hb1, hr⟩ := Option.bind_eq_some.mp hr
  obtain ⟨b2, hb2, hr⟩ := Option.bind_eq_some.mp hr
  obtain ⟨b3, hb3, hr⟩ := Option.map_eq_some'.mp hr
  rw [← hr]

/-- C3 witness: the amended dispatch at the concrete halted state `cpuC3`
(halted, `IME = 0`, `IF = IE = 1`), with the register projection of the
result evaluated: PC lands at the VBLANK vector `0x40` with SP dropped
from `0xC100` to `0xC0FE`. -/
theorem c3_halt_wake_check :
    (Cpu.runOne staticBusOps cpuC3).map (fun r => (r.1.sleep, r.1.ime, r.1.pc, r.1.sp, r.2)) =
      some (false, false, 0x40, 0xC0FE, 5) := by
  obtain ⟨heq, hproj⟩ := c3_halt_wake cpuC3 IntSource.VBLANK rfl (by decide)
  rw [heq]
  decide

/-- C4, counterexample: on a 2-bank MBC1 cart, writing `N = 2` to the
`0x2000` bank register and reading `0x4000` returns the ROM byte at offset
0 — the code masks *after* the 0→1 fix-up, giving bank `2 & 1 = 0` — while
the claim's formula `max(1, N & (num_rom_banks-1)) = 1` predicts the byte
at offset `0x4000`. -/
theorem c4_counterexample :
    ((MBC1.write MBC1.new cartC4 0x2000 2).bind fun mc => MBC1.read mc.1 mc.2 0x4000) =
      some 0 ∧
    cartC4.rom (max 1 (2 &&& (2 - 1)) * 0x4000) = 0xAA ∧
    ¬(((MBC1.write MBC1.new cartC4 0x2000 2).bind fun mc => MBC1.read mc.1 mc.2 0x4000) =
        some (cartC4.rom (max 1 (2 &&& (2 - 1)) * 0x4000))) := by
  have h1 : ((MBC1.write MBC1.new cartC4 0x2000 2).bind fun mc => MBC1.read mc.1 mc.2 0x4000) =
      some 0 := by
    rw [mbc1_write_bank cartC4 0 2 (by decide) (by decide) (by decide) (by decide)
      (by decide)]
    simp only [Option.bind_eq_bind, Option.some_bind]
    rw [mbc1_read_bank cartC4 0 _ (by decide) (by decide) (by decide) (by decide)
      (by decide) rfl (by decide) (by decide)]
    decide
  have h2 : cartC4.rom (max 1 (2 &&& (2 - 1)) * 0x4000) = 0xAA := by decide
  refine ⟨h1, h2, ?_⟩
  rw [h1, h2]
  decide

/-- C4, amended: for MBC1 with `num_rom_banks = 2^(k+1)` (k ≤ 6, i.e. 2 to
128 banks), after writing byte `N` to the `0x2000`–`0x3FFF` bank register
(secondary bank 0, simple mode), reading `0x4000` returns the ROM byte at
offset `N_masked * 0x4000` where
`N_masked = max(1, N & 0x1F) & (num_rom_banks - 1)`: the written value is
masked to 5 bits, the 0→1 fix-up happens *before* the banks-available
mask, so the result can be bank 0. -/
theorem c4_mbc1_bank (c : CartData) (k N : Nat) (hk : k ≤ 6) (hN : N < 256)
    (hcode : c.rom 0x148 = k) (hram : c.rom 0x149 = 0)
    (htitle : c.rom 0x134 = 0) (hmfr : c.rom 0x13F = 0)
    (hlen : c.romLen = 32768 * 2 ^ k) :
    (MBC1.write MBC1.new c 0x2000 N).bind (fun mc => MBC1.read mc.1 mc.2 0x4000) =
      some (c.rom (((max 1 (N &&& 0x1F)) &&& (2 ^ (k + 1) - 1)) * 0x4000)) := by
  rw [mbc1_write_bank c k N hcode hram htitle hmfr hlen]
  simp only [Option.bind_eq_bind, Option.some_bind]
  have hval : (if N &&& 0x1F = 0 then 1 else N &&& 0x1F) = max 1 (N &&& 0x1F) := by
    rcases Nat.eq_zero_or_pos (N &&& 0x1F) with h | h
    · simp [h]
    · rw [if_neg (by omega)]
      have h31 : N &&& 0x1F ≤ 31 := Nat.and_le_right
      omega
  have hv31 : (if N &&& 0x1F = 0 then 1 else N &&& 0x1F) ≤ 31 := by
    rcases Nat.eq_zero_or_pos (N &&& 0x1F) with h | h
    · simp [h]
    · rw [if_neg (by omega)]
      exact Nat.and_le_right
  rw [mbc1_read_bank c k _ hcode hram htitle hmfr hlen rfl
    Nat.and_le_right (lt_of_le_of_lt (le_trans Nat.and_le_left hv31) (by norm_num))]
  rw [hval]

/-- C4 witness: the amended bank formula on the 4-bank cart with `N = 0`
(forced to bank 1, reading `0xBB`). -/
theorem c4_mbc1_bank_check :
    (MBC1.write MBC1.new cartC4w 0x2000 0).bind (fun mc => MBC1.read mc.1 mc.2 0x4000) =
      some (cartC4w.rom (((max 1 (0 &&& 0x1F)) &&& (2 ^ (1 + 1) - 1)) * 0x4000)) :=
  c4_mbc1_bank cartC4w 1 0 (by norm_num) (by norm_num) (by decide) (by decide)
    (by decide) (by decide) (by decide)
